import Mathlib

/-!
Verification of the `ethereum_rpc` typed codec layer: a shallow embedding of
`src/ethereum_rpc/_serialization.py` and `src/ethereum_rpc/_rpc.py`.

Strings are modelled as lists of Unicode code points (`Str`), JSON-like wire
values as the inductive `JSON`, and Python exceptions as the `PyErr` type,
distinguishing the wrapped `compages.StructuringError` from a bare `ValueError`
escaping a handler.  The model of the builtin parsers `int(s, 0)` and
`bytes.fromhex` is faithful for ASCII inputs (CPython additionally accepts
non-ASCII Unicode decimal digits and a few non-ASCII whitespace code points;
theorems that characterise parser success therefore carry an ASCII hypothesis).
-/

namespace EthereumRpc

/-- Strings as lists of Unicode code points. -/
abbrev Str := List Nat

/-- Code points of a Lean string literal, used to write `Str` constants. -/
def ofString (s : String) : Str := s.data.map Char.toNat

/-- JSON-serializable dynamic values (the `JSON` alias in `_serialization.py`;
floats never occur in this codec and are omitted). -/
inductive JSON where
  | null : JSON
  | bool (b : Bool) : JSON
  | int (n : Int) : JSON
  | str (s : Str) : JSON
  | arr (xs : List JSON) : JSON
  | obj (kvs : List (Str × JSON)) : JSON

/-- Python-level failure outcomes of structuring:
`structuring` is a raised `compages.StructuringError` (a wrapped codec error),
`valueError` is a bare `ValueError` escaping a handler unwrapped,
`validation` is a value-type construction failure (length or sign validation,
modelled from the spec since `_typed_wrappers.py` is not part of the sources). -/
inductive PyErr where
  | structuring (msg : Str) : PyErr
  | valueError (msg : Str) : PyErr
  | validation (msg : Str) : PyErr
  deriving DecidableEq

/-- Result of a structuring computation. -/
abbrev Exc := Except PyErr

@[simp] theorem exc_ok_bind {α β : Type} (a : α) (f : α → Exc β) :
    (Except.ok a : Exc α) >>= f = f a := rfl

@[simp] theorem exc_err_bind {α β : Type} (e : PyErr) (f : α → Exc β) :
    (Except.error e : Exc α) >>= f = Except.error e := rfl

/-! ## Character-level helpers -/

/-- Value of a hexadecimal digit code point (`0-9`, `a-f`, `A-F`). -/
def hexDigitVal (c : Nat) : Option Nat :=
  if 48 ≤ c ∧ c ≤ 57 then some (c - 48)
  else if 97 ≤ c ∧ c ≤ 102 then some (c - 87)
  else if 65 ≤ c ∧ c ≤ 70 then some (c - 55)
  else none

/-- Boolean test for a hexadecimal digit code point. -/
def isHexDig (c : Nat) : Bool :=
  (48 ≤ c && c ≤ 57) || (97 ≤ c && c ≤ 102) || (65 ≤ c && c ≤ 70)

/-- Code points recognised as whitespace by CPython `int()`
(`Py_UNICODE_ISSPACE`). -/
def pyIsSpace (c : Nat) : Bool :=
  c ∈ [9, 10, 11, 12, 13, 28, 29, 30, 31, 32, 133, 160, 5760,
       8192, 8193, 8194, 8195, 8196, 8197, 8198, 8199, 8200, 8201, 8202,
       8232, 8233, 8239, 8287, 12288]

/-- ASCII whitespace skipped by `bytes.fromhex` (Python 3.11 and later;
Python 3.10 skips only the space character, which is the one exercised by
every concrete input below). -/
def asciiWS (c : Nat) : Bool := c ∈ [9, 10, 11, 12, 13, 32]

/-- Lowercase hexadecimal digit character for a nibble. -/
def hexDigitChar (n : Nat) : Nat := if n < 10 then 48 + n else 87 + n

/-- ASCII uppercasing of a code point. -/
def asciiUpper (c : Nat) : Nat := if 97 ≤ c ∧ c ≤ 122 then c - 32 else c

/-- ASCII lowercasing of a code point. -/
def asciiLower (c : Nat) : Nat := if 65 ≤ c ∧ c ≤ 90 then c + 32 else c

/-! ## Model of CPython `int(s, 0)` on `0x`-prefixed strings

After the `0x` prefix CPython accepts an optional underscore, then hex digits
separated by optional single underscores, then optional trailing whitespace. -/

/-- Digit accumulation step of base-16 parsing. -/
def hexStep (acc : Nat) (c : Nat) : Nat := acc * 16 + (hexDigitVal c).getD 0

/-- Digit scanner of CPython `int(s, 0)` after the `0x` prefix, as a state
machine. The state is `0` after a digit (digits, a single underscore, or a
whitespace-only tail may follow, and the end of input is accepted), `1` right
after an underscore (a digit must follow), and `2` at the start (a digit or
one underscore must follow; empty input is rejected). -/
def hexRun (st : Nat) : List Nat → Nat → Option Nat
  | [], acc => if st = 0 then some acc else none
  | c :: cs, acc =>
    if isHexDig c then hexRun 0 cs (hexStep acc c)
    else if c = 95 then
      if st = 1 then none else hexRun 1 cs acc
    else if pyIsSpace c then
      if st = 0 ∧ cs.all pyIsSpace then some acc else none
    else none

/-- Parse the part of the string after the `0x` prefix. -/
def hexStart (cs : List Nat) : Option Nat := hexRun 2 cs 0

/-! ## Model of `bytes.fromhex`

Whitespace may appear before, between, and after two-digit byte groups, but
not inside a group. -/

/-- Main loop of `bytes.fromhex` over the characters after the `0x` prefix:
whitespace may appear before the high nibble of each byte, but the low nibble
must follow its high nibble immediately. `pend` holds a pending high nibble. -/
def fromhexRun : Option Nat → List Nat → List Nat → Option (List Nat)
  | none, [], acc => some acc.reverse
  | some _, [], _ => none
  | none, c :: cs, acc =>
    if isHexDig c then fromhexRun (some ((hexDigitVal c).getD 0)) cs acc
    else if asciiWS c then fromhexRun none cs acc
    else none
  | some hi, c :: cs, acc =>
    if isHexDig c then fromhexRun none cs ((hi * 16 + (hexDigitVal c).getD 0) :: acc)
    else none

/-- Model of `bytes.fromhex`. -/
def fromhexLoop (cs : List Nat) (acc : List Nat) : Option (List Nat) :=
  fromhexRun none cs acc

/-! ## Unstructuring primitives (`hex`, `bytes.hex`) -/

/-- Hexadecimal digit characters of a positive natural, most significant
first; empty for zero (`hex` inserts the lone `0` separately). -/
def natHexDigits : Nat → List Nat
  | 0 => []
  | n + 1 => natHexDigits ((n + 1) / 16) ++ [hexDigitChar ((n + 1) % 16)]
  decreasing_by exact Nat.div_lt_self (Nat.succ_pos n) (by omega)

/-- Minimal hexadecimal digit string of a natural number (`"0"` for zero). -/
def natHexStr (n : Nat) : List Nat := if n = 0 then [48] else natHexDigits n

/-- Model of Python `hex` on arbitrary integers. -/
def pyHex (n : Int) : Str :=
  if n < 0 then ofString "-0x" ++ natHexStr (-n).toNat
  else ofString "0x" ++ natHexStr n.toNat

/-- Hexadecimal body of `bytes.hex()`: two lowercase digits per byte. -/
def bytesHexBody : List Nat → List Nat
  | [] => []
  | v :: vs => hexDigitChar (v / 16) :: hexDigitChar (v % 16) :: bytesHexBody vs

/-- Model of `"0x" + val.hex()` (`_AsBytesToHex`). -/
def bytesToHex (b : List Nat) : Str := ofString "0x" ++ bytesHexBody b

/-! ## Structuring leaf handlers of `_serialization.py` -/

/-- Handler `_IntoIntFromHex`: requires a `0x`-prefixed string, then calls
`int(val, 0)`; a parse failure inside `int` escapes as a bare `ValueError`. -/
def intoIntFromHex (v : JSON) : Exc Int :=
  match v with
  | .str s =>
    if s.take 2 = ofString "0x" then
      match hexStart (s.drop 2) with
      | some n => .ok (n : Int)
      | none => .error (.valueError (ofString "invalid literal for int() with base 0"))
    else .error (.structuring (ofString "The value must be a 0x-prefixed hex-encoded integer"))
  | _ => .error (.structuring (ofString "The value must be a 0x-prefixed hex-encoded integer"))

/-- Handler `_IntoBytesFromHex`: requires a `0x`-prefixed string, then calls
`bytes.fromhex` and wraps its `ValueError` into a `StructuringError`. -/
def intoBytesFromHex (v : JSON) : Exc (List Nat) :=
  match v with
  | .str s =>
    if s.take 2 = ofString "0x" then
      match fromhexLoop (s.drop 2) [] with
      | some b => .ok b
      | none => .error (.structuring (ofString "non-hexadecimal number found in fromhex() arg"))
    else .error (.structuring (ofString "The value must be a 0x-prefixed hex-encoded data"))
  | _ => .error (.structuring (ofString "The value must be a 0x-prefixed hex-encoded data"))

/-- Handler `_IntoTypedData`: hex-decodes the bytes, then invokes the typed
wrapper constructor, which (modelled from the spec: `_typed_wrappers.TypedData`
is not among the sources) validates the exact byte length `n`. -/
def intoTypedData (n : Nat) (v : JSON) : Exc (List Nat) := do
  let b ← intoBytesFromHex v
  if b.length = n then .ok b
  else .error (.validation (ofString "Incorrect data length"))

/-- Handler `_IntoTypedQuantity` for `Amount`: hex-decodes the integer, then
invokes the quantity constructor, which (modelled from the spec:
`_typed_wrappers.TypedQuantity` is not among the sources) rejects negative
values. -/
def intoAmount (v : JSON) : Exc Int := do
  let n ← intoIntFromHex v
  if n < 0 then .error (.validation (ofString "The value must be non-negative"))
  else .ok n

/-- Handler `compages.IntoInt`, registered for `ErrorCode`: accepts a plain
integer. -/
def intoPlainInt (v : JSON) : Exc Int :=
  match v with
  | .int n => .ok n
  | _ => .error (.structuring (ofString "The value must be an integer"))

/-- Handler `compages.IntoStr`. -/
def intoStr (v : JSON) : Exc Str :=
  match v with
  | .str s => .ok s
  | _ => .error (.structuring (ofString "The value must be a string"))

/-- Handler `compages.IntoBool`. -/
def intoBool (v : JSON) : Exc Bool :=
  match v with
  | .bool b => .ok b
  | _ => .error (.structuring (ofString "The value must be a boolean"))

/-- Block labels (`BlockLabel` enum in `_rpc.py`). -/
inductive BlockLabel where
  | latest | pending | safe | finalized | earliest
  deriving DecidableEq

/-- Wire string of a block label (`BlockLabel.value`). -/
def BlockLabel.wire : BlockLabel → Str
  | .latest => ofString "latest"
  | .pending => ofString "pending"
  | .safe => ofString "safe"
  | .finalized => ofString "finalized"
  | .earliest => ofString "earliest"

/-- Handler `_IntoBlockLabel`: the `BlockLabel(val)` enum lookup, wrapping its
`ValueError` into a `StructuringError`. -/
def intoBlockLabel (v : JSON) : Exc BlockLabel :=
  match v with
  | .str s =>
    if s = ofString "latest" then .ok .latest
    else if s = ofString "pending" then .ok .pending
    else if s = ofString "safe" then .ok .safe
    else if s = ofString "finalized" then .ok .finalized
    else if s = ofString "earliest" then .ok .earliest
    else .error (.structuring (ofString "is not a valid BlockLabel"))
  | _ => .error (.structuring (ofString "is not a valid BlockLabel"))

/-! ## Unstructuring leaf handlers -/

/-- Case choice of the address checksum: for each address a per-position
uppercasing decision. Modelled from the spec: the checksum collaborator in
`_typed_wrappers.py` is an external pure function of the 20 bytes returning a
deterministic mixed-case `0x`-prefixed hex form; the hash-derived case rule is
not part of the sources, so the development is parameterised by it. -/
abbrev AddrCase := List Nat → Nat → Bool

/-- Mixed-case hexadecimal body: lowercase digit pairs with the given
uppercasing decision applied per character position. -/
def hexMixedFrom (u : Nat → Bool) : Nat → List Nat → List Nat
  | _, [] => []
  | i, v :: vs =>
    (if u i then asciiUpper (hexDigitChar (v / 16)) else hexDigitChar (v / 16)) ::
    (if u (i + 1) then asciiUpper (hexDigitChar (v % 16)) else hexDigitChar (v % 16)) ::
    hexMixedFrom u (i + 2) vs

/-- Handler `_AsAddress` (`val.checksum`), modelled from the spec: a
deterministic `0x`-prefixed mixed-case hex encoding of the 20 address bytes. -/
def checksumOf (rule : AddrCase) (b : List Nat) : Str :=
  ofString "0x" ++ hexMixedFrom (rule b) 0 b

/-- Handler `_AsIntToHex` (`hex(val)`). -/
def uInt (n : Int) : JSON := .str (pyHex n)

/-- Handler `_AsBytesToHex`. -/
def uBytes (b : List Nat) : JSON := .str (bytesToHex b)

/-- Handler `_AsTypedQuantity` (`hex(int(val))`). -/
def uAmount (n : Int) : JSON := .str (pyHex n)

/-- Handler `_AsBlockLabel` (`val.value`). -/
def uBlockLabel (l : BlockLabel) : JSON := .str l.wire

/-- Unstructuring of an optional value: `None` dispatches to `AsNone`. -/
def uOpt {α : Type} (f : α → JSON) : Option α → JSON
  | none => .null
  | some x => f x

/-! ## Field-name translation (`_to_camel_case`) -/

/-- Model of `str.removesuffix` for the one-character suffix `_`. -/
def pyRemoveSuffixU (s : Str) : Str :=
  if s.getLast? = some 95 then s.dropLast else s

/-- Prepend a character to the first segment of a split result. -/
def consHead (c : Nat) : List Str → List Str
  | [] => [[c]]
  | p :: ps => (c :: p) :: ps

/-- Model of `str.split` on the one-character separator `_`
(keeps empty segments). -/
def pySplitU : Str → List Str
  | [] => [[]]
  | c :: cs => if c = 95 then [] :: pySplitU cs else consHead c (pySplitU cs)

/-- Model of `str.capitalize`: first character uppercased, the rest
lowercased (for the ASCII characters of field names). -/
def pyCapitalize : Str → Str
  | [] => []
  | c :: cs => asciiUpper c :: cs.map asciiLower

/-- The source function `_to_camel_case`: strip a single trailing underscore,
split on underscores, keep the first segment and capitalize the rest. -/
def toCamelCase (s : Str) : Str :=
  match pySplitU (pyRemoveSuffixU s) with
  | [] => []
  | p :: ps => p ++ (ps.map pyCapitalize).flatten

/-- Wire key of a domain field name; `compages` applies `_to_camel_case` to
the field name in both the structuring and the unstructuring direction. -/
def wireKey (s : String) : Str := toCamelCase (ofString s)

/-- First-occurrence lookup in a JSON object (Python mapping access). -/
def alistLookup (k : Str) : List (Str × JSON) → Option JSON
  | [] => none
  | (k', v) :: rest => if k = k' then some v else alistLookup k rest

/-- Python dict item assignment: replace the value at an existing key in
place, otherwise append the new key at the end. -/
def dictSet : List (Str × JSON) → Str → JSON → List (Str × JSON)
  | [], k, v => [(k, v)]
  | (k', v') :: rest, k, v =>
    if k' = k then (k, v) :: rest else (k', v') :: dictSet rest k v

/-! ## Round-trip lemmas for the hex primitives -/

theorem isHexDig_ranges {c : Nat} (h : isHexDig c = true) :
    (48 ≤ c ∧ c ≤ 57) ∨ (97 ≤ c ∧ c ≤ 102) ∨ (65 ≤ c ∧ c ≤ 70) := by
  simp only [isHexDig, Bool.or_eq_true, Bool.and_eq_true, decide_eq_true_eq] at h
  omega

theorem isHexDig_of_val {c d : Nat} (h : hexDigitVal c = some d) : isHexDig c = true := by
  unfold hexDigitVal at h
  split_ifs at h with h1 h2 h3 <;>
    simp only [isHexDig, Bool.or_eq_true, Bool.and_eq_true, decide_eq_true_eq] <;>
    omega

theorem hexDigitVal_isSome_of_dig {c : Nat} (h : isHexDig c = true) :
    (hexDigitVal c).isSome = true := by
  rcases isHexDig_ranges h with h' | h' | h' <;>
    · unfold hexDigitVal
      split_ifs <;> simp_all

theorem not_isHexDig_underscore : isHexDig 95 = false := rfl

theorem isHexDig_not_space {c : Nat} (h : isHexDig c = true) : pyIsSpace c = false := by
  rcases isHexDig_ranges h with h' | h' | h' <;>
    · simp only [pyIsSpace, List.mem_cons, List.not_mem_nil, or_false,
        decide_eq_false_iff_not]
      omega

theorem isHexDig_not_asciiWS {c : Nat} (h : isHexDig c = true) : asciiWS c = false := by
  rcases isHexDig_ranges h with h' | h' | h' <;>
    · simp only [asciiWS, List.mem_cons, List.not_mem_nil, or_false,
        decide_eq_false_iff_not]
      omega

theorem hexDigitVal_hexDigitChar {m : Nat} (h : m < 16) :
    hexDigitVal (hexDigitChar m) = some m := by
  unfold hexDigitChar hexDigitVal
  split_ifs <;> simp_all <;> omega

theorem hexDigitVal_mixedChar (b : Bool) {m : Nat} (h : m < 16) :
    hexDigitVal (if b then asciiUpper (hexDigitChar m) else hexDigitChar m) = some m := by
  cases b
  · simpa using hexDigitVal_hexDigitChar h
  · simp only [if_true]
    unfold hexDigitChar asciiUpper hexDigitVal
    split_ifs <;> simp_all <;> omega

theorem hexRun_digits_append (ds : List Nat) (rest : List Nat) :
    ∀ acc : Nat, (∀ c ∈ ds, isHexDig c = true) →
    hexRun 0 (ds ++ rest) acc = hexRun 0 rest (ds.foldl hexStep acc) := by
  induction ds with
  | nil => intro acc _; rfl
  | cons c ds ih =>
    intro acc h
    have hc : isHexDig c = true := h c (by simp)
    simp only [List.cons_append, hexRun, hc, if_true, List.foldl_cons]
    exact ih (hexStep acc c) (fun x hx => h x (by simp [hx]))

theorem hexStart_digits (ds : List Nat) (hne : ds ≠ [])
    (h : ∀ c ∈ ds, isHexDig c = true) :
    hexStart ds = some (ds.foldl hexStep 0) := by
  match ds, hne with
  | c :: cs, _ =>
    have hc : isHexDig c = true := h c (by simp)
    have hcs : ∀ x ∈ cs, isHexDig x = true := fun x hx => h x (by simp [hx])
    simp only [hexStart, hexRun, hc, if_true, List.foldl_cons]
    have := hexRun_digits_append cs [] (hexStep 0 c) hcs
    simp only [List.append_nil] at this
    rw [this]
    rfl

theorem natHexDigits_digits (n : Nat) : ∀ c ∈ natHexDigits n, isHexDig c = true := by
  induction n using Nat.strong_induction_on with
  | _ n ih =>
    match n with
    | 0 => simp [natHexDigits]
    | m + 1 =>
      rw [natHexDigits]
      intro c hc
      rcases List.mem_append.mp hc with hc | hc
      · exact ih ((m + 1) / 16) (Nat.div_lt_self (Nat.succ_pos m) (by omega)) c hc
      · simp only [List.mem_singleton] at hc
        subst hc
        exact isHexDig_of_val (hexDigitVal_hexDigitChar (Nat.mod_lt _ (by omega)))

theorem natHexDigits_foldl (n : Nat) : ∀ acc : Nat,
    (natHexDigits n).foldl hexStep acc = acc * 16 ^ (natHexDigits n).length + n := by
  induction n using Nat.strong_induction_on with
  | _ n ih =>
    match n with
    | 0 => simp [natHexDigits]
    | m + 1 =>
      intro acc
      rw [natHexDigits]
      have hq := ih ((m + 1) / 16) (Nat.div_lt_self (Nat.succ_pos m) (by omega)) acc
      have hr : hexDigitVal (hexDigitChar ((m + 1) % 16)) = some ((m + 1) % 16) :=
        hexDigitVal_hexDigitChar (Nat.mod_lt _ (by omega))
      simp only [List.foldl_append, List.foldl_cons, List.foldl_nil, hq, hexStep, hr,
        Option.getD_some, List.length_append, List.length_cons, List.length_nil,
        Nat.zero_add, pow_succ]
      have hdm : (m + 1) / 16 * 16 + (m + 1) % 16 = m + 1 := by omega
      nlinarith [hdm]

theorem natHexStr_digits (n : Nat) : ∀ c ∈ natHexStr n, isHexDig c = true := by
  unfold natHexStr
  split_ifs with h
  · intro c hc
    simp only [List.mem_singleton] at hc
    subst hc
    rfl
  · exact natHexDigits_digits n

theorem natHexStr_ne_nil (n : Nat) : natHexStr n ≠ [] := by
  unfold natHexStr
  split_ifs with h
  · simp
  · match n, h with
    | m + 1, _ =>
      rw [natHexDigits]
      simp

theorem natHexStr_foldl (n : Nat) : (natHexStr n).foldl hexStep 0 = n := by
  unfold natHexStr
  split_ifs with h
  · subst h; rfl
  · match n, h with
    | m + 1, _ =>
      have := natHexDigits_foldl (m + 1) 0
      simpa using this

theorem hexStart_natHexStr (n : Nat) : hexStart (natHexStr n) = some n := by
  rw [hexStart_digits (natHexStr n) (natHexStr_ne_nil n) (natHexStr_digits n),
    natHexStr_foldl]

theorem take_two_0x (t : List Nat) : (ofString "0x" ++ t).take 2 = ofString "0x" := rfl

theorem drop_two_0x (t : List Nat) : (ofString "0x" ++ t).drop 2 = t := rfl

/-- Round trip of the integer hex codec: structuring the string produced by
`hex(n)` for a non-negative `n` recovers `n`. -/
theorem intoIntFromHex_pyHex {n : Int} (h : 0 ≤ n) :
    intoIntFromHex (.str (pyHex n)) = .ok n := by
  have hneg : ¬n < 0 := not_lt.mpr h
  simp only [pyHex, if_neg hneg, intoIntFromHex, take_two_0x, drop_two_0x, if_pos trivial,
    hexStart_natHexStr]
  rw [Int.toNat_of_nonneg h]

theorem fromhexRun_mixed (bs : List Nat) (u : Nat → Bool) :
    ∀ (i : Nat) (acc : List Nat), (∀ v ∈ bs, v < 256) →
    fromhexRun none (hexMixedFrom u i bs) acc = some (acc.reverse ++ bs) := by
  induction bs with
  | nil => intro i acc _; simp [hexMixedFrom, fromhexRun]
  | cons v vs ih =>
    intro i acc h
    have hv : v < 256 := h v (by simp)
    have hhi : hexDigitVal (if u i then asciiUpper (hexDigitChar (v / 16))
        else hexDigitChar (v / 16)) = some (v / 16) :=
      hexDigitVal_mixedChar _ (Nat.div_lt_of_lt_mul (by omega))
    have hlo : hexDigitVal (if u (i + 1) then asciiUpper (hexDigitChar (v % 16))
        else hexDigitChar (v % 16)) = some (v % 16) :=
      hexDigitVal_mixedChar _ (Nat.mod_lt _ (by omega))
    simp only [hexMixedFrom, fromhexRun, isHexDig_of_val hhi, if_true, hhi, hlo,
      isHexDig_of_val hlo, Option.getD_some]
    rw [ih (i + 2) ((v / 16 * 16 + v % 16) :: acc) (fun x hx => h x (by simp [hx]))]
    have hdm : v / 16 * 16 + v % 16 = v := by omega
    rw [hdm]
    simp

theorem bytesHexBody_eq_mixed (bs : List Nat) :
    ∀ i, bytesHexBody bs = hexMixedFrom (fun _ => false) i bs := by
  induction bs with
  | nil => intro i; rfl
  | cons v vs ih => intro i; simp [bytesHexBody, hexMixedFrom, ih (i + 2)]

/-- Round trip of the bytes hex codec: structuring the string produced by
`"0x" + b.hex()` recovers the bytes. -/
theorem intoBytesFromHex_bytesToHex {b : List Nat} (h : ∀ v ∈ b, v < 256) :
    intoBytesFromHex (.str (bytesToHex b)) = .ok b := by
  simp only [bytesToHex, intoBytesFromHex, take_two_0x, drop_two_0x, if_pos trivial,
    fromhexLoop, bytesHexBody_eq_mixed b 0, fromhexRun_mixed b (fun _ => false) 0 [] h,
    List.reverse_nil, List.nil_append]

/-- Structuring the checksummed form of an address recovers its bytes. -/
theorem intoBytesFromHex_checksum (rule : AddrCase) {b : List Nat} (h : ∀ v ∈ b, v < 256) :
    intoBytesFromHex (.str (checksumOf rule b)) = .ok b := by
  simp only [checksumOf, intoBytesFromHex, take_two_0x, drop_two_0x, if_pos trivial,
    fromhexLoop, fromhexRun_mixed b (rule b) 0 [] h, List.reverse_nil, List.nil_append]


/-! ## Generic structuring combinators

These model the behaviour of the external `compages` dispatch engine
(out of scope of the sources, modelled from the spec, section 4.4):
records structure from a keyed mapping by wire name; missing required fields
fail; optional (`None | T`) fields treat absent and `null` as absent; unions
try variants in declaration order, a variant failing with a wrapped
structuring error falls through to the next variant while a bare `ValueError`
propagates; sequences structure elementwise, fail-fast. -/

/-- Structure a record body from a JSON value that must be a mapping. -/
def withObj {α : Type} (j : JSON) (f : List (Str × JSON) → Exc α) : Exc α :=
  match j with
  | .obj m => f m
  | _ => .error (.structuring (ofString "The value must be a mapping"))

@[simp] theorem withObj_obj {α : Type} (m : List (Str × JSON)) (f : List (Str × JSON) → Exc α) :
    withObj (.obj m) f = f m := rfl

/-- Map over the result of a structuring computation. -/
def excMap {α β : Type} (g : α → β) : Exc α → Exc β
  | .ok a => .ok (g a)
  | .error e => .error e

@[simp] theorem excMap_ok {α β : Type} (g : α → β) (a : α) :
    excMap g (.ok a) = .ok (g a) := rfl

@[simp] theorem excMap_err {α β : Type} (g : α → β) (e : PyErr) :
    excMap g (.error e) = .error e := rfl

/-- Wrap a structured value into `some` (the non-`None` member of an
optional union). -/
def excSome {α : Type} : Exc α → Exc (Option α)
  | .ok a => .ok (some a)
  | .error e => .error e

@[simp] theorem excSome_ok {α : Type} (a : α) : excSome (.ok a : Exc α) = .ok (some a) := rfl

@[simp] theorem excSome_err {α : Type} (e : PyErr) :
    excSome (.error e : Exc α) = (.error e : Exc (Option α)) := rfl

/-- Union fallthrough: a first variant failing with a wrapped structuring
error falls through to the next variant; a bare error propagates. -/
def sAlt {α : Type} (a : Exc α) (b : Unit → Exc α) : Exc α :=
  match a with
  | .ok x => .ok x
  | .error (.structuring _) => b ()
  | .error e => .error e

@[simp] theorem sAlt_ok {α : Type} (x : α) (b : Unit → Exc α) : sAlt (.ok x) b = .ok x := rfl

@[simp] theorem sAlt_structuring {α : Type} (m : Str) (b : Unit → Exc α) :
    sAlt (.error (.structuring m)) b = b () := rfl

@[simp] theorem sAlt_valueError {α : Type} (m : Str) (b : Unit → Exc α) :
    sAlt (.error (.valueError m)) b = .error (.valueError m) := rfl

@[simp] theorem sAlt_validation {α : Type} (m : Str) (b : Unit → Exc α) :
    sAlt (.error (.validation m)) b = .error (.validation m) := rfl

/-- Structuring of a `None | T` union applied to a present value. -/
def sNoneOr {α : Type} (f : JSON → Exc α) (v : JSON) : Exc (Option α) :=
  match v with
  | .null => .ok none
  | v => excSome (f v)

@[simp] theorem sNoneOr_null {α : Type} (f : JSON → Exc α) : sNoneOr f .null = .ok none := rfl

@[simp] theorem sNoneOr_bool {α : Type} (f : JSON → Exc α) (b : Bool) :
    sNoneOr f (.bool b) = excSome (f (.bool b)) := rfl

@[simp] theorem sNoneOr_int {α : Type} (f : JSON → Exc α) (n : Int) :
    sNoneOr f (.int n) = excSome (f (.int n)) := rfl

@[simp] theorem sNoneOr_str {α : Type} (f : JSON → Exc α) (s : Str) :
    sNoneOr f (.str s) = excSome (f (.str s)) := rfl

@[simp] theorem sNoneOr_arr {α : Type} (f : JSON → Exc α) (xs : List JSON) :
    sNoneOr f (.arr xs) = excSome (f (.arr xs)) := rfl

@[simp] theorem sNoneOr_obj {α : Type} (f : JSON → Exc α) (kvs : List (Str × JSON)) :
    sNoneOr f (.obj kvs) = excSome (f (.obj kvs)) := rfl

/-- A required record field: missing key fails with a structuring error. -/
def sReq {α : Type} (f : JSON → Exc α) : Option JSON → Exc α
  | none => .error (.structuring (ofString "Missing field"))
  | some v => f v

@[simp] theorem sReq_some {α : Type} (f : JSON → Exc α) (v : JSON) :
    sReq f (some v) = f v := rfl

/-- An optional (`None | T`) record field: an absent key or a `null` value
structure as the absent option. -/
def sOptField {α : Type} (f : JSON → Exc α) : Option JSON → Exc (Option α)
  | none => .ok none
  | some v => sNoneOr f v

@[simp] theorem sOptField_some {α : Type} (f : JSON → Exc α) (v : JSON) :
    sOptField f (some v) = sNoneOr f v := rfl

/-- Elementwise fail-fast structuring of a sequence. -/
def mapExc {α : Type} (f : JSON → Exc α) : List JSON → Exc (List α)
  | [] => .ok []
  | x :: xs => do
    let a ← f x
    let rest ← mapExc f xs
    .ok (a :: rest)

/-- Handlers `compages.IntoList` and `IntoTuple` for homogeneous variadic
tuples: the dynamic value must be a sequence, elements recurse. -/
def sList {α : Type} (f : JSON → Exc α) (v : JSON) : Exc (List α) :=
  match v with
  | .arr xs => mapExc f xs
  | _ => .error (.structuring (ofString "The value must be a sequence"))

@[simp] theorem sList_arr {α : Type} (f : JSON → Exc α) (xs : List JSON) :
    sList f (.arr xs) = mapExc f xs := rfl

/-- Unstructure a sequence elementwise. -/
def uList {α : Type} (f : α → JSON) (xs : List α) : JSON := .arr (xs.map f)

/-! ## Domain records (`_rpc.py`) -/

/-- Block reference: the `Block = int | BlockLabel` union. -/
inductive BlockRef where
  | num (n : Int) : BlockRef
  | label (l : BlockLabel) : BlockRef
  deriving DecidableEq

/-- Structure the `int | BlockLabel` union: the `int` variant is declared
first. -/
def sBlockRef (v : JSON) : Exc BlockRef :=
  sAlt (excMap .num (intoIntFromHex v)) (fun _ => excMap .label (intoBlockLabel v))

/-- Unstructure a block reference on its runtime variant. -/
def uBlockRef : BlockRef → JSON
  | .num n => uInt n
  | .label l => uBlockLabel l

/-- Transaction info record (`TxInfo`). Typed wrappers are represented by
their byte lists and `Amount` by its integer. -/
structure TxInfo where
  chain_id : Int
  type_ : Int
  hash_ : List Nat
  input_ : Option (List Nat)
  block_hash : Option (List Nat)
  block_number : Int
  transaction_index : Option Int
  from_ : List Nat
  «to» : Option (List Nat)
  value : Int
  nonce : Int
  gas : Int
  gas_price : Int
  max_fee_per_gas : Option Int
  max_priority_fee_per_gas : Option Int
  v : Int
  r : Int
  s : Int
  deriving DecidableEq

/-- Unstructure `TxInfo`: a mapping of unstructured fields under their wire
names, in declared field order. -/
def unstructureTxInfo (rule : AddrCase) (t : TxInfo) : JSON :=
  .obj [
    (wireKey "chain_id", uInt t.chain_id),
    (wireKey "type_", uInt t.type_),
    (wireKey "hash_", uBytes t.hash_),
    (wireKey "input_", uOpt uBytes t.input_),
    (wireKey "block_hash", uOpt uBytes t.block_hash),
    (wireKey "block_number", uInt t.block_number),
    (wireKey "transaction_index", uOpt uInt t.transaction_index),
    (wireKey "from_", .str (checksumOf rule t.from_)),
    (wireKey "to", uOpt (fun a => .str (checksumOf rule a)) t.«to»),
    (wireKey "value", uAmount t.value),
    (wireKey "nonce", uInt t.nonce),
    (wireKey "gas", uInt t.gas),
    (wireKey "gas_price", uAmount t.gas_price),
    (wireKey "max_fee_per_gas", uOpt uAmount t.max_fee_per_gas),
    (wireKey "max_priority_fee_per_gas", uOpt uAmount t.max_priority_fee_per_gas),
    (wireKey "v", uInt t.v),
    (wireKey "r", uInt t.r),
    (wireKey "s", uInt t.s)]

/-- Structure `TxInfo` from a mapping, looking each field up under its wire
name. -/
def structureTxInfo (j : JSON) : Exc TxInfo :=
  withObj j fun m => do
    let chain_id ← sReq intoIntFromHex (alistLookup (wireKey "chain_id") m)
    let type_ ← sReq intoIntFromHex (alistLookup (wireKey "type_") m)
    let hash_ ← sReq (intoTypedData 32) (alistLookup (wireKey "hash_") m)
    let input_ ← sOptField intoBytesFromHex (alistLookup (wireKey "input_") m)
    let block_hash ← sOptField (intoTypedData 32) (alistLookup (wireKey "block_hash") m)
    let block_number ← sReq intoIntFromHex (alistLookup (wireKey "block_number") m)
    let transaction_index ← sOptField intoIntFromHex (alistLookup (wireKey "transaction_index") m)
    let from_ ← sReq (intoTypedData 20) (alistLookup (wireKey "from_") m)
    let «to» ← sOptField (intoTypedData 20) (alistLookup (wireKey "to") m)
    let value ← sReq intoAmount (alistLookup (wireKey "value") m)
    let nonce ← sReq intoIntFromHex (alistLookup (wireKey "nonce") m)
    let gas ← sReq intoIntFromHex (alistLookup (wireKey "gas") m)
    let gas_price ← sReq intoAmount (alistLookup (wireKey "gas_price") m)
    let max_fee_per_gas ← sOptField intoAmount (alistLookup (wireKey "max_fee_per_gas") m)
    let max_priority_fee_per_gas ←
      sOptField intoAmount (alistLookup (wireKey "max_priority_fee_per_gas") m)
    let v ← sReq intoIntFromHex (alistLookup (wireKey "v") m)
    let r ← sReq intoIntFromHex (alistLookup (wireKey "r") m)
    let s ← sReq intoIntFromHex (alistLookup (wireKey "s") m)
    .ok { chain_id, type_, hash_, input_, block_hash, block_number, transaction_index,
          from_, «to», value, nonce, gas, gas_price, max_fee_per_gas,
          max_priority_fee_per_gas, v, r, s }

/-- Log entry record (`LogEntry`). -/
structure LogEntry where
  removed : Bool
  address : List Nat
  data : List Nat
  topics : List (List Nat)
  log_index : Int
  transaction_index : Int
  transaction_hash : List Nat
  block_hash : List Nat
  block_number : Int
  deriving DecidableEq

/-- Unstructure `LogEntry`. -/
def unstructureLogEntry (rule : AddrCase) (t : LogEntry) : JSON :=
  .obj [
    (wireKey "removed", .bool t.removed),
    (wireKey "address", .str (checksumOf rule t.address)),
    (wireKey "data", uBytes t.data),
    (wireKey "topics", uList uBytes t.topics),
    (wireKey "log_index", uInt t.log_index),
    (wireKey "transaction_index", uInt t.transaction_index),
    (wireKey "transaction_hash", uBytes t.transaction_hash),
    (wireKey "block_hash", uBytes t.block_hash),
    (wireKey "block_number", uInt t.block_number)]

/-- Structure `LogEntry`. -/
def structureLogEntry (j : JSON) : Exc LogEntry :=
  withObj j fun m => do
    let removed ← sReq intoBool (alistLookup (wireKey "removed") m)
    let address ← sReq (intoTypedData 20) (alistLookup (wireKey "address") m)
    let data ← sReq intoBytesFromHex (alistLookup (wireKey "data") m)
    let topics ← sReq (sList (intoTypedData 32)) (alistLookup (wireKey "topics") m)
    let log_index ← sReq intoIntFromHex (alistLookup (wireKey "log_index") m)
    let transaction_index ← sReq intoIntFromHex (alistLookup (wireKey "transaction_index") m)
    let transaction_hash ← sReq (intoTypedData 32) (alistLookup (wireKey "transaction_hash") m)
    let block_hash ← sReq (intoTypedData 32) (alistLookup (wireKey "block_hash") m)
    let block_number ← sReq intoIntFromHex (alistLookup (wireKey "block_number") m)
    .ok { removed, address, data, topics, log_index, transaction_index,
          transaction_hash, block_hash, block_number }



/-- Transaction receipt record (`TxReceipt`). -/
structure TxReceipt where
  block_hash : List Nat
  block_number : Int
  contract_address : Option (List Nat)
  cumulative_gas_used : Int
  effective_gas_price : Int
  from_ : List Nat
  gas_used : Int
  «to» : Option (List Nat)
  transaction_hash : List Nat
  transaction_index : Int
  type_ : Int
  status : Int
  logs : List LogEntry
  logs_bloom : List Nat
  deriving DecidableEq

/-- Unstructure `TxReceipt`. -/
def unstructureTxReceipt (rule : AddrCase) (t : TxReceipt) : JSON :=
  .obj [
    (wireKey "block_hash", uBytes t.block_hash),
    (wireKey "block_number", uInt t.block_number),
    (wireKey "contract_address", uOpt (fun a => .str (checksumOf rule a)) t.contract_address),
    (wireKey "cumulative_gas_used", uInt t.cumulative_gas_used),
    (wireKey "effective_gas_price", uAmount t.effective_gas_price),
    (wireKey "from_", .str (checksumOf rule t.from_)),
    (wireKey "gas_used", uInt t.gas_used),
    (wireKey "to", uOpt (fun a => .str (checksumOf rule a)) t.«to»),
    (wireKey "transaction_hash", uBytes t.transaction_hash),
    (wireKey "transaction_index", uInt t.transaction_index),
    (wireKey "type_", uInt t.type_),
    (wireKey "status", uInt t.status),
    (wireKey "logs", uList (unstructureLogEntry rule) t.logs),
    (wireKey "logs_bloom", uBytes t.logs_bloom)]

/-- Structure `TxReceipt`. -/
def structureTxReceipt (j : JSON) : Exc TxReceipt :=
  withObj j fun m => do
    let block_hash ← sReq (intoTypedData 32) (alistLookup (wireKey "block_hash") m)
    let block_number ← sReq intoIntFromHex (alistLookup (wireKey "block_number") m)
    let contract_address ← sOptField (intoTypedData 20) (alistLookup (wireKey "contract_address") m)
    let cumulative_gas_used ← sReq intoIntFromHex (alistLookup (wireKey "cumulative_gas_used") m)
    let effective_gas_price ← sReq intoAmount (alistLookup (wireKey "effective_gas_price") m)
    let from_ ← sReq (intoTypedData 20) (alistLookup (wireKey "from_") m)
    let gas_used ← sReq intoIntFromHex (alistLookup (wireKey "gas_used") m)
    let «to» ← sOptField (intoTypedData 20) (alistLookup (wireKey "to") m)
    let transaction_hash ← sReq (intoTypedData 32) (alistLookup (wireKey "transaction_hash") m)
    let transaction_index ← sReq intoIntFromHex (alistLookup (wireKey "transaction_index") m)
    let type_ ← sReq intoIntFromHex (alistLookup (wireKey "type_") m)
    let status ← sReq intoIntFromHex (alistLookup (wireKey "status") m)
    let logs ← sReq (sList structureLogEntry) (alistLookup (wireKey "logs") m)
    let logs_bloom ← sReq (intoTypedData 256) (alistLookup (wireKey "logs_bloom") m)
    .ok { block_hash, block_number, contract_address, cumulative_gas_used,
          effective_gas_price, from_, gas_used, «to», transaction_hash,
          transaction_index, type_, status, logs, logs_bloom }

/-- The `succeeded` property of `TxReceipt`. -/
def TxReceipt.succeeded (t : TxReceipt) : Bool := t.status == 1

/-- The `tuple[TxInfo, ...] | tuple[TxHash, ...]` union of
`BlockInfo.transactions`. -/
inductive Txs where
  | infos (xs : List TxInfo) : Txs
  | hashes (hs : List (List Nat)) : Txs
  deriving DecidableEq

/-- Structure the transactions union, trying the `tuple[TxInfo, ...]` variant
first. -/
def sTxs (v : JSON) : Exc Txs :=
  sAlt (excMap .infos (sList structureTxInfo v))
    (fun _ => excMap .hashes (sList (intoTypedData 32) v))

/-- Unstructure the transactions union on its runtime variant. -/
def uTxs (rule : AddrCase) : Txs → JSON
  | .infos xs => uList (unstructureTxInfo rule) xs
  | .hashes hs => uList uBytes hs

/-- Block info record (`BlockInfo`). -/
structure BlockInfo where
  number : Int
  hash_ : Option (List Nat)
  parent_hash : List Nat
  nonce : Option (List Nat)
  miner : Option (List Nat)
  difficulty : Int
  total_difficulty : Option Int
  size : Int
  gas_limit : Int
  gas_used : Int
  base_fee_per_gas : Int
  timestamp : Int
  transactions : Txs
  uncles : List (List Nat)
  sha3_uncles : List Nat
  logs_bloom : Option (List Nat)
  transactions_root : List Nat
  state_root : List Nat
  receipts_root : List Nat
  extra_data : List Nat
  deriving DecidableEq

/-- Unstructure `BlockInfo`. -/
def unstructureBlockInfo (rule : AddrCase) (t : BlockInfo) : JSON :=
  .obj [
    (wireKey "number", uInt t.number),
    (wireKey "hash_", uOpt uBytes t.hash_),
    (wireKey "parent_hash", uBytes t.parent_hash),
    (wireKey "nonce", uOpt uBytes t.nonce),
    (wireKey "miner", uOpt (fun a => .str (checksumOf rule a)) t.miner),
    (wireKey "difficulty", uInt t.difficulty),
    (wireKey "total_difficulty", uOpt uInt t.total_difficulty),
    (wireKey "size", uInt t.size),
    (wireKey "gas_limit", uInt t.gas_limit),
    (wireKey "gas_used", uInt t.gas_used),
    (wireKey "base_fee_per_gas", uAmount t.base_fee_per_gas),
    (wireKey "timestamp", uInt t.timestamp),
    (wireKey "transactions", uTxs rule t.transactions),
    (wireKey "uncles", uList uBytes t.uncles),
    (wireKey "sha3_uncles", uBytes t.sha3_uncles),
    (wireKey "logs_bloom", uOpt uBytes t.logs_bloom),
    (wireKey "transactions_root", uBytes t.transactions_root),
    (wireKey "state_root", uBytes t.state_root),
    (wireKey "receipts_root", uBytes t.receipts_root),
    (wireKey "extra_data", uBytes t.extra_data)]

/-- Structure `BlockInfo`. -/
def structureBlockInfo (j : JSON) : Exc BlockInfo :=
  withObj j fun m => do
    let number ← sReq intoIntFromHex (alistLookup (wireKey "number") m)
    let hash_ ← sOptField (intoTypedData 32) (alistLookup (wireKey "hash_") m)
    let parent_hash ← sReq (intoTypedData 32) (alistLookup (wireKey "parent_hash") m)
    let nonce ← sOptField (intoTypedData 8) (alistLookup (wireKey "nonce") m)
    let miner ← sOptField (intoTypedData 20) (alistLookup (wireKey "miner") m)
    let difficulty ← sReq intoIntFromHex (alistLookup (wireKey "difficulty") m)
    let total_difficulty ← sOptField intoIntFromHex (alistLookup (wireKey "total_difficulty") m)
    let size ← sReq intoIntFromHex (alistLookup (wireKey "size") m)
    let gas_limit ← sReq intoIntFromHex (alistLookup (wireKey "gas_limit") m)
    let gas_used ← sReq intoIntFromHex (alistLookup (wireKey "gas_used") m)
    let base_fee_per_gas ← sReq intoAmount (alistLookup (wireKey "base_fee_per_gas") m)
    let timestamp ← sReq intoIntFromHex (alistLookup (wireKey "timestamp") m)
    let transactions ← sReq sTxs (alistLookup (wireKey "transactions") m)
    let uncles ← sReq (sList (intoTypedData 32)) (alistLookup (wireKey "uncles") m)
    let sha3_uncles ← sReq (intoTypedData 32) (alistLookup (wireKey "sha3_uncles") m)
    let logs_bloom ← sOptField (intoTypedData 256) (alistLookup (wireKey "logs_bloom") m)
    let transactions_root ← sReq (intoTypedData 32) (alistLookup (wireKey "transactions_root") m)
    let state_root ← sReq (intoTypedData 32) (alistLookup (wireKey "state_root") m)
    let receipts_root ← sReq (intoTypedData 32) (alistLookup (wireKey "receipts_root") m)
    let extra_data ← sReq intoBytesFromHex (alistLookup (wireKey "extra_data") m)
    .ok { number, hash_, parent_hash, nonce, miner, difficulty, total_difficulty, size,
          gas_limit, gas_used, base_fee_per_gas, timestamp, transactions, uncles,
          sha3_uncles, logs_bloom, transactions_root, state_root, receipts_root,
          extra_data }

/-- RPC error record (`RPCError`); the code is an `ErrorCode`, a plain
(non-hexified) integer. -/
structure RPCError where
  code : Int
  message : Str
  data : Option (List Nat)
  deriving DecidableEq

/-- Unstructure `RPCError`: the code unstructures through `AsInt` as a plain
integer, the data through the hex codec. -/
def unstructureRPCError (t : RPCError) : JSON :=
  .obj [
    (wireKey "code", .int t.code),
    (wireKey "message", .str t.message),
    (wireKey "data", uOpt uBytes t.data)]

/-- Structure `RPCError`: the code structures through `IntoInt` from a plain
integer. -/
def structureRPCError (j : JSON) : Exc RPCError :=
  withObj j fun m => do
    let code ← sReq intoPlainInt (alistLookup (wireKey "code") m)
    let message ← sReq intoStr (alistLookup (wireKey "message") m)
    let data ← sOptField intoBytesFromHex (alistLookup (wireKey "data") m)
    .ok { code, message, data }

/-- Type-2 (EIP-1559) transaction record (`Type2Transaction`); the `type`
discriminator is not a field of the record. -/
structure Type2Transaction where
  chain_id : Int
  value : Int
  gas : Int
  max_fee_per_gas : Int
  max_priority_fee_per_gas : Int
  nonce : Int
  «to» : Option (List Nat)
  data : Option (List Nat)
  deriving DecidableEq

/-- Wire mapping of the fields of a `Type2Transaction`, without the
discriminator (the inner record handler of `_AsTypedTx`). -/
def unstructureType2Inner (rule : AddrCase) (t : Type2Transaction) : List (Str × JSON) :=
  [(wireKey "chain_id", uInt t.chain_id),
   (wireKey "value", uAmount t.value),
   (wireKey "gas", uInt t.gas),
   (wireKey "max_fee_per_gas", uAmount t.max_fee_per_gas),
   (wireKey "max_priority_fee_per_gas", uAmount t.max_priority_fee_per_gas),
   (wireKey "nonce", uInt t.nonce),
   (wireKey "to", uOpt (fun a => .str (checksumOf rule a)) t.«to»),
   (wireKey "data", uOpt uBytes t.data)]

/-- Handler `_AsTypedTx(2)`: build the inner record mapping first, then
insert the hex-encoded discriminator `"type": hex(2)` into the result. -/
def unstructureType2Tx (rule : AddrCase) (t : Type2Transaction) : JSON :=
  .obj (dictSet (unstructureType2Inner rule t) (ofString "type") (uInt 2))

/-- Inner record structuring of `Type2Transaction` (the delegated
`IntoDataclassFromMapping` step; the `type` key is not a field and extra keys
are ignored). -/
def structureType2Inner (m : List (Str × JSON)) : Exc Type2Transaction := do
  let chain_id ← sReq intoIntFromHex (alistLookup (wireKey "chain_id") m)
  let value ← sReq intoAmount (alistLookup (wireKey "value") m)
  let gas ← sReq intoIntFromHex (alistLookup (wireKey "gas") m)
  let max_fee_per_gas ← sReq intoAmount (alistLookup (wireKey "max_fee_per_gas") m)
  let max_priority_fee_per_gas ← sReq intoAmount (alistLookup (wireKey "max_priority_fee_per_gas") m)
  let nonce ← sReq intoIntFromHex (alistLookup (wireKey "nonce") m)
  let «to» ← sOptField (intoTypedData 20) (alistLookup (wireKey "to") m)
  let data ← sOptField intoBytesFromHex (alistLookup (wireKey "data") m)
  .ok { chain_id, value, gas, max_fee_per_gas, max_priority_fee_per_gas, nonce, «to», data }

/-- Result of looking up a key that must be present. -/
def onKey {α : Type} (o : Option JSON) (missing : Str) (f : JSON → Exc α) : Exc α :=
  match o with
  | none => .error (.structuring missing)
  | some v => f v

@[simp] theorem onKey_some {α : Type} (v : JSON) (missing : Str) (f : JSON → Exc α) :
    onKey (some v) missing f = f v := rfl

@[simp] theorem onKey_none {α : Type} (missing : Str) (f : JSON → Exc α) :
    onKey none missing f = .error (.structuring missing) := rfl

/-- Handler `_IntoTypedTx(2)`: the value must be a mapping containing a
`type` field; the `type` field is structured as a hex integer first and
checked against the fixed tag 2 before any other field is structured; only
then is the rest of the mapping delegated to the inner record handler. -/
def structureType2Tx (j : JSON) : Exc Type2Transaction :=
  match j with
  | .obj m =>
    onKey (alistLookup (ofString "type") m)
      (ofString "Transaction is missing the type field") fun tv => do
        let t ← intoIntFromHex tv
        if t = 2 then structureType2Inner m
        else .error (.structuring (ofString "Expected transaction type 2"))
  | _ => .error (.structuring (ofString "Transaction must be a mapping type"))

/-- Call parameter record (`EthCallParams`). -/
structure EthCallParams where
  «to» : List Nat
  from_ : Option (List Nat)
  gas : Option Int
  gas_price : Int
  value : Int
  data : Option (List Nat)
  deriving DecidableEq

/-- Unstructure `EthCallParams`. -/
def unstructureEthCallParams (rule : AddrCase) (t : EthCallParams) : JSON :=
  .obj [
    (wireKey "to", .str (checksumOf rule t.«to»)),
    (wireKey "from_", uOpt (fun a => .str (checksumOf rule a)) t.from_),
    (wireKey "gas", uOpt uInt t.gas),
    (wireKey "gas_price", uInt t.gas_price),
    (wireKey "value", uAmount t.value),
    (wireKey "data", uOpt uBytes t.data)]

/-- Structure `EthCallParams`. -/
def structureEthCallParams (j : JSON) : Exc EthCallParams :=
  withObj j fun m => do
    let «to» ← sReq (intoTypedData 20) (alistLookup (wireKey "to") m)
    let from_ ← sOptField (intoTypedData 20) (alistLookup (wireKey "from_") m)
    let gas ← sOptField intoIntFromHex (alistLookup (wireKey "gas") m)
    let gas_price ← sReq intoIntFromHex (alistLookup (wireKey "gas_price") m)
    let value ← sReq intoAmount (alistLookup (wireKey "value") m)
    let data ← sOptField intoBytesFromHex (alistLookup (wireKey "data") m)
    .ok { «to», from_, gas, gas_price, value, data }

/-- Gas estimation parameter record (`EstimateGasParams`). -/
structure EstimateGasParams where
  from_ : List Nat
  «to» : Option (List Nat)
  gas : Option Int
  gas_price : Int
  nonce : Option Int
  value : Int
  data : Option (List Nat)
  deriving DecidableEq

/-- Unstructure `EstimateGasParams`. -/
def unstructureEstimateGasParams (rule : AddrCase) (t : EstimateGasParams) : JSON :=
  .obj [
    (wireKey "from_", .str (checksumOf rule t.from_)),
    (wireKey "to", uOpt (fun a => .str (checksumOf rule a)) t.«to»),
    (wireKey "gas", uOpt uInt t.gas),
    (wireKey "gas_price", uInt t.gas_price),
    (wireKey "nonce", uOpt uInt t.nonce),
    (wireKey "value", uAmount t.value),
    (wireKey "data", uOpt uBytes t.data)]

/-- Structure `EstimateGasParams`. -/
def structureEstimateGasParams (j : JSON) : Exc EstimateGasParams :=
  withObj j fun m => do
    let from_ ← sReq (intoTypedData 20) (alistLookup (wireKey "from_") m)
    let «to» ← sOptField (intoTypedData 20) (alistLookup (wireKey "to") m)
    let gas ← sOptField intoIntFromHex (alistLookup (wireKey "gas") m)
    let gas_price ← sReq intoIntFromHex (alistLookup (wireKey "gas_price") m)
    let nonce ← sOptField intoIntFromHex (alistLookup (wireKey "nonce") m)
    let value ← sReq intoAmount (alistLookup (wireKey "value") m)
    let data ← sOptField intoBytesFromHex (alistLookup (wireKey "data") m)
    .ok { from_, «to», gas, gas_price, nonce, value, data }

/-- The `Address | tuple[Address, ...]` part of the filter `address` field. -/
inductive AddrsField where
  | one (a : List Nat) : AddrsField
  | many (as : List (List Nat)) : AddrsField
  deriving DecidableEq

/-- Structure the `Address | tuple[Address, ...]` union in declaration
order. -/
def sAddrsField (v : JSON) : Exc AddrsField :=
  sAlt (excMap .one (intoTypedData 20 v))
    (fun _ => excMap .many (sList (intoTypedData 20) v))

/-- Unstructure the filter `address` union on its runtime variant. -/
def uAddrsField (rule : AddrCase) : AddrsField → JSON
  | .one a => .str (checksumOf rule a)
  | .many as => uList (fun a => .str (checksumOf rule a)) as

/-- The `LogTopic | tuple[LogTopic, ...]` part of a filter topic element. -/
inductive TopicItem where
  | one (t : List Nat) : TopicItem
  | many (ts : List (List Nat)) : TopicItem
  deriving DecidableEq

/-- Structure the `LogTopic | tuple[LogTopic, ...]` union in declaration
order. -/
def sTopicItem (v : JSON) : Exc TopicItem :=
  sAlt (excMap .one (intoTypedData 32 v))
    (fun _ => excMap .many (sList (intoTypedData 32) v))

/-- Unstructure a topic element on its runtime variant. -/
def uTopicItem : TopicItem → JSON
  | .one t => uBytes t
  | .many ts => uList uBytes ts

/-- Filter parameter record (`FilterParams`). -/
structure FilterParams where
  from_block : Option BlockRef
  to_block : Option BlockRef
  address : Option AddrsField
  topics : Option (List (Option TopicItem))
  deriving DecidableEq

/-- Unstructure `FilterParams`. -/
def unstructureFilterParams (rule : AddrCase) (t : FilterParams) : JSON :=
  .obj [
    (wireKey "from_block", uOpt uBlockRef t.from_block),
    (wireKey "to_block", uOpt uBlockRef t.to_block),
    (wireKey "address", uOpt (uAddrsField rule) t.address),
    (wireKey "topics", uOpt (uList (uOpt uTopicItem)) t.topics)]

/-- Structure `FilterParams`. -/
def structureFilterParams (j : JSON) : Exc FilterParams :=
  withObj j fun m => do
    let from_block ← sOptField sBlockRef (alistLookup (wireKey "from_block") m)
    let to_block ← sOptField sBlockRef (alistLookup (wireKey "to_block") m)
    let address ← sOptField sAddrsField (alistLookup (wireKey "address") m)
    let topics ← sOptField (sList (sNoneOr sTopicItem)) (alistLookup (wireKey "topics") m)
    .ok { from_block, to_block, address, topics }

/-- EIP-234 filter parameter record (`FilterParamsEIP234`). -/
structure FilterParamsEIP234 where
  block_hash : List Nat
  address : Option AddrsField
  topics : Option (List (Option TopicItem))
  deriving DecidableEq

/-- Unstructure `FilterParamsEIP234`. -/
def unstructureFilterParamsEIP234 (rule : AddrCase) (t : FilterParamsEIP234) : JSON :=
  .obj [
    (wireKey "block_hash", uBytes t.block_hash),
    (wireKey "address", uOpt (uAddrsField rule) t.address),
    (wireKey "topics", uOpt (uList (uOpt uTopicItem)) t.topics)]

/-- Structure `FilterParamsEIP234`. -/
def structureFilterParamsEIP234 (j : JSON) : Exc FilterParamsEIP234 :=
  withObj j fun m => do
    let block_hash ← sReq (intoTypedData 32) (alistLookup (wireKey "block_hash") m)
    let address ← sOptField sAddrsField (alistLookup (wireKey "address") m)
    let topics ← sOptField (sList (sNoneOr sTopicItem)) (alistLookup (wireKey "topics") m)
    .ok { block_hash, address, topics }

@[simp] theorem alistLookup_nil (k : Str) : alistLookup k [] = none := rfl

@[simp] theorem alistLookup_cons (k k' : Str) (v : JSON) (rest : List (Str × JSON)) :
    alistLookup k ((k', v) :: rest) = if k = k' then some v else alistLookup k rest := rfl

def ValidBytes (b : List Nat) : Prop := ∀ v ∈ b, v < 256

def ValidData (n : Nat) (b : List Nat) : Prop := b.length = n ∧ ValidBytes b

def OptP {α : Type} (P : α → Prop) : Option α → Prop
  | none => True
  | some x => P x

instance {α : Type} (P : α → Prop) [DecidablePred P] : DecidablePred (OptP P) := fun o =>
  match o with
  | none => Decidable.isTrue trivial
  | some x => inferInstanceAs (Decidable (P x))

theorem rt_uInt {n : Int} (h : 0 ≤ n) : intoIntFromHex (uInt n) = .ok n :=
  intoIntFromHex_pyHex h

theorem rt_uAmount {n : Int} (h : 0 ≤ n) : intoAmount (uAmount n) = .ok n := by
  unfold intoAmount uAmount
  rw [intoIntFromHex_pyHex h, exc_ok_bind, if_neg (not_lt.mpr h)]

theorem rt_uBytes {b : List Nat} (h : ValidBytes b) : intoBytesFromHex (uBytes b) = .ok b :=
  intoBytesFromHex_bytesToHex h

theorem rt_uData {n : Nat} {b : List Nat} (h : ValidData n b) :
    intoTypedData n (uBytes b) = .ok b := by
  unfold intoTypedData uBytes
  rw [intoBytesFromHex_bytesToHex h.2, exc_ok_bind, if_pos h.1]

theorem rt_uAddr (rule : AddrCase) {b : List Nat} (h : ValidData 20 b) :
    intoTypedData 20 (.str (checksumOf rule b)) = .ok b := by
  unfold intoTypedData
  rw [intoBytesFromHex_checksum rule h.2, exc_ok_bind, if_pos h.1]

theorem rt_optInt {o : Option Int} (h : OptP (fun n => 0 ≤ n) o) :
    sOptField intoIntFromHex (some (uOpt uInt o)) = .ok o := by
  cases o with
  | none => rfl
  | some n =>
    show excSome (intoIntFromHex (.str (pyHex n))) = .ok (some n)
    rw [intoIntFromHex_pyHex h, excSome_ok]

theorem rt_optAmount {o : Option Int} (h : OptP (fun n => 0 ≤ n) o) :
    sOptField intoAmount (some (uOpt uAmount o)) = .ok o := by
  cases o with
  | none => rfl
  | some n =>
    show excSome (intoAmount (uAmount n)) = .ok (some n)
    rw [rt_uAmount h, excSome_ok]

theorem rt_optBytes {o : Option (List Nat)} (h : OptP ValidBytes o) :
    sOptField intoBytesFromHex (some (uOpt uBytes o)) = .ok o := by
  cases o with
  | none => rfl
  | some b =>
    show excSome (intoBytesFromHex (uBytes b)) = .ok (some b)
    rw [rt_uBytes h, excSome_ok]

theorem rt_optData {n : Nat} {o : Option (List Nat)} (h : OptP (ValidData n) o) :
    sOptField (intoTypedData n) (some (uOpt uBytes o)) = .ok o := by
  cases o with
  | none => rfl
  | some b =>
    show excSome (intoTypedData n (uBytes b)) = .ok (some b)
    rw [rt_uData h, excSome_ok]

theorem rt_optAddr (rule : AddrCase) {o : Option (List Nat)} (h : OptP (ValidData 20) o) :
    sOptField (intoTypedData 20) (some (uOpt (fun a => .str (checksumOf rule a)) o)) = .ok o := by
  cases o with
  | none => rfl
  | some b =>
    show excSome (intoTypedData 20 (.str (checksumOf rule b))) = .ok (some b)
    rw [rt_uAddr rule h, excSome_ok]

def ValidTxInfo (t : TxInfo) : Prop :=
  0 ≤ t.chain_id ∧ 0 ≤ t.type_ ∧ ValidData 32 t.hash_ ∧ OptP ValidBytes t.input_ ∧
  OptP (ValidData 32) t.block_hash ∧ 0 ≤ t.block_number ∧
  OptP (fun n : Int => 0 ≤ n) t.transaction_index ∧ ValidData 20 t.from_ ∧
  OptP (ValidData 20) t.«to» ∧ 0 ≤ t.value ∧ 0 ≤ t.nonce ∧ 0 ≤ t.gas ∧ 0 ≤ t.gas_price ∧
  OptP (fun n : Int => 0 ≤ n) t.max_fee_per_gas ∧
  OptP (fun n : Int => 0 ≤ n) t.max_priority_fee_per_gas ∧ 0 ≤ t.v ∧ 0 ≤ t.r ∧ 0 ≤ t.s

theorem rtTxInfo (rule : AddrCase) (t : TxInfo) (h : ValidTxInfo t) :
    structureTxInfo (unstructureTxInfo rule t) = .ok t := by
  obtain ⟨h1, h2, h3, h4, h5, h6, h7, h8, h9, h10, h11, h12, h13, h14, h15, h16, h17, h18⟩ := h
  simp +decide only [structureTxInfo, unstructureTxInfo, withObj_obj, alistLookup_cons,
    alistLookup_nil, if_true, if_false, sReq_some, rt_uInt h1, rt_uInt h2, rt_uData h3, rt_optBytes h4, rt_optData h5,
    rt_uInt h6, rt_optInt h7, rt_uAddr rule h8, rt_optAddr rule h9, rt_uAmount h10,
    rt_uInt h11, rt_uInt h12, rt_uAmount h13, rt_optAmount h14, rt_optAmount h15,
    rt_uInt h16, rt_uInt h17, rt_uInt h18, exc_ok_bind]



@[simp] theorem intoBool_bool (b : Bool) : intoBool (.bool b) = .ok b := rfl

@[simp] theorem intoStr_str (s : Str) : intoStr (.str s) = .ok s := rfl

@[simp] theorem intoPlainInt_int (n : Int) : intoPlainInt (.int n) = .ok n := rfl

theorem sNoneOr_ne_null {α : Type} (f : JSON → Exc α) {v : JSON} (h : v ≠ .null) :
    sNoneOr f v = excSome (f v) := by
  cases v
  case null => exact absurd rfl h
  all_goals rfl

theorem mapExc_map {α : Type} (f : JSON → Exc α) (u : α → JSON) (xs : List α)
    (h : ∀ x ∈ xs, f (u x) = .ok x) : mapExc f (xs.map u) = .ok xs := by
  induction xs with
  | nil => rfl
  | cons x xs ih =>
    simp only [List.map_cons, mapExc, h x (by simp), exc_ok_bind,
      ih (fun y hy => h y (by simp [hy]))]

theorem rt_uList {α : Type} {f : JSON → Exc α} {u : α → JSON} {xs : List α}
    (h : ∀ x ∈ xs, f (u x) = .ok x) : sList f (uList u xs) = .ok xs := by
  rw [uList, sList_arr, mapExc_map f u xs h]

/-- A generic optional-field round trip from the leaf round trip. -/
theorem rt_opt_generic {α : Type} {f : JSON → Exc α} {u : α → JSON} {P : α → Prop}
    (hnull : ∀ x, u x ≠ JSON.null) (hrt : ∀ x, P x → f (u x) = .ok x)
    {o : Option α} (h : OptP P o) : sOptField f (some (uOpt u o)) = .ok o := by
  cases o with
  | none => rfl
  | some x =>
    show sNoneOr f (u x) = .ok (some x)
    rw [sNoneOr_ne_null f (hnull x), hrt x h, excSome_ok]

instance : DecidablePred ValidBytes := fun b =>
  inferInstanceAs (Decidable (∀ v ∈ b, v < 256))

instance (n : Nat) : DecidablePred (ValidData n) := fun b =>
  inferInstanceAs (Decidable (b.length = n ∧ ValidBytes b))

/-- Validity of a `LogEntry` domain instance. -/
def ValidLogEntry (t : LogEntry) : Prop :=
  ValidData 20 t.address ∧ ValidBytes t.data ∧ (∀ x ∈ t.topics, ValidData 32 x) ∧
  0 ≤ t.log_index ∧ 0 ≤ t.transaction_index ∧ ValidData 32 t.transaction_hash ∧
  ValidData 32 t.block_hash ∧ 0 ≤ t.block_number

instance : DecidablePred ValidLogEntry := fun t => by
  unfold ValidLogEntry; infer_instance

theorem rtLogEntry (rule : AddrCase) (t : LogEntry) (h : ValidLogEntry t) :
    structureLogEntry (unstructureLogEntry rule t) = .ok t := by
  obtain ⟨h1, h2, h3, h4, h5, h6, h7, h8⟩ := h
  simp +decide only [structureLogEntry, unstructureLogEntry, withObj_obj, alistLookup_cons,
    alistLookup_nil, if_true, if_false, sReq_some, intoBool_bool, rt_uAddr rule h1,
    rt_uBytes h2, rt_uList (fun x hx => rt_uData (h3 x hx)), rt_uInt h4, rt_uInt h5,
    rt_uData h6, rt_uData h7, rt_uInt h8, exc_ok_bind]

/-- Validity of a `TxReceipt` domain instance. -/
def ValidTxReceipt (t : TxReceipt) : Prop :=
  ValidData 32 t.block_hash ∧ 0 ≤ t.block_number ∧ OptP (ValidData 20) t.contract_address ∧
  0 ≤ t.cumulative_gas_used ∧ 0 ≤ t.effective_gas_price ∧ ValidData 20 t.from_ ∧
  0 ≤ t.gas_used ∧ OptP (ValidData 20) t.«to» ∧ ValidData 32 t.transaction_hash ∧
  0 ≤ t.transaction_index ∧ 0 ≤ t.type_ ∧ 0 ≤ t.status ∧
  (∀ x ∈ t.logs, ValidLogEntry x) ∧ ValidData 256 t.logs_bloom

instance : DecidablePred ValidTxReceipt := fun t => by
  unfold ValidTxReceipt; infer_instance

theorem rtTxReceipt (rule : AddrCase) (t : TxReceipt) (h : ValidTxReceipt t) :
    structureTxReceipt (unstructureTxReceipt rule t) = .ok t := by
  obtain ⟨h1, h2, h3, h4, h5, h6, h7, h8, h9, h10, h11, h12, h13, h14⟩ := h
  simp +decide only [structureTxReceipt, unstructureTxReceipt, withObj_obj, alistLookup_cons,
    alistLookup_nil, if_true, if_false, sReq_some, rt_uData h1, rt_uInt h2,
    rt_optAddr rule h3, rt_uInt h4, rt_uAmount h5, rt_uAddr rule h6, rt_uInt h7,
    rt_optAddr rule h8, rt_uData h9, rt_uInt h10, rt_uInt h11, rt_uInt h12,
    rt_uList (fun x hx => rtLogEntry rule x (h13 x hx)), rt_uData h14, exc_ok_bind]


/-- Python equality coincides with structural equality for the empty tuple in
both variants of the transactions union; canonicalisation picks the variant
structuring yields. -/
def canonTxs : Txs → Txs
  | .hashes [] => .infos []
  | t => t

/-- Python `==` on the transactions union: a tuple of `TxInfo` and a tuple of
`TxHash` compare equal exactly when both are empty. -/
def pyEqTxs : Txs → Txs → Bool
  | .infos xs, .infos ys => decide (xs = ys)
  | .hashes xs, .hashes ys => decide (xs = ys)
  | .infos xs, .hashes ys => decide (xs = [] ∧ ys = [])
  | .hashes xs, .infos ys => decide (xs = [] ∧ ys = [])

/-- Python `==` (dataclass field-wise equality) on `BlockInfo`. -/
def pyEqBlockInfo (a b : BlockInfo) : Bool :=
  decide (a.number = b.number) && decide (a.hash_ = b.hash_) &&
  decide (a.parent_hash = b.parent_hash) && decide (a.nonce = b.nonce) &&
  decide (a.miner = b.miner) && decide (a.difficulty = b.difficulty) &&
  decide (a.total_difficulty = b.total_difficulty) && decide (a.size = b.size) &&
  decide (a.gas_limit = b.gas_limit) && decide (a.gas_used = b.gas_used) &&
  decide (a.base_fee_per_gas = b.base_fee_per_gas) && decide (a.timestamp = b.timestamp) &&
  pyEqTxs a.transactions b.transactions && decide (a.uncles = b.uncles) &&
  decide (a.sha3_uncles = b.sha3_uncles) && decide (a.logs_bloom = b.logs_bloom) &&
  decide (a.transactions_root = b.transactions_root) &&
  decide (a.state_root = b.state_root) && decide (a.receipts_root = b.receipts_root) &&
  decide (a.extra_data = b.extra_data)

/-- The `BlockInfo` value structuring returns for an unstructured one. -/
def canonBlockInfo (t : BlockInfo) : BlockInfo :=
  { t with transactions := canonTxs t.transactions }

/-- Validity of a transactions union instance. -/
def ValidTxs : Txs → Prop
  | .infos xs => ∀ x ∈ xs, ValidTxInfo x
  | .hashes hs => ∀ x ∈ hs, ValidData 32 x

instance : DecidablePred ValidTxInfo := fun t => by
  unfold ValidTxInfo; infer_instance

instance : DecidablePred ValidTxs := fun t =>
  match t with
  | .infos xs => inferInstanceAs (Decidable (∀ x ∈ xs, ValidTxInfo x))
  | .hashes hs => inferInstanceAs (Decidable (∀ x ∈ hs, ValidData 32 x))

theorem pyEqTxs_canon (t : Txs) : pyEqTxs (canonTxs t) t = true := by
  cases t with
  | infos xs => show pyEqTxs (.infos xs) (.infos xs) = true; simp [pyEqTxs]
  | hashes hs =>
    cases hs with
    | nil => rfl
    | cons b bs => show pyEqTxs (.hashes (b :: bs)) (.hashes (b :: bs)) = true; simp [pyEqTxs]

theorem pyEqBlockInfo_canon (t : BlockInfo) : pyEqBlockInfo (canonBlockInfo t) t = true := by
  simp [pyEqBlockInfo, canonBlockInfo, pyEqTxs_canon]

theorem rt_uTxs (rule : AddrCase) (t : Txs) (h : ValidTxs t) :
    sTxs (uTxs rule t) = .ok (canonTxs t) := by
  cases t with
  | infos xs =>
    show sTxs (uList (unstructureTxInfo rule) xs) = .ok (.infos xs)
    unfold sTxs
    rw [rt_uList (fun x hx => rtTxInfo rule x (h x hx)), excMap_ok, sAlt_ok]
  | hashes hs =>
    cases hs with
    | nil => rfl
    | cons b bs =>
      show sTxs (uList uBytes (b :: bs)) = .ok (.hashes (b :: bs))
      unfold sTxs
      have h1 : sList structureTxInfo (uList uBytes (b :: bs)) =
          .error (.structuring (ofString "The value must be a mapping")) := by
        show mapExc structureTxInfo (uBytes b :: List.map uBytes bs) = _
        simp only [mapExc,
          show structureTxInfo (uBytes b) =
            .error (.structuring (ofString "The value must be a mapping")) from rfl,
          exc_err_bind]
      rw [h1, excMap_err, sAlt_structuring,
        rt_uList (fun x hx => rt_uData (h x hx)), excMap_ok]

/-- Validity of a `BlockInfo` domain instance. -/
def ValidBlockInfo (t : BlockInfo) : Prop :=
  0 ≤ t.number ∧ OptP (ValidData 32) t.hash_ ∧ ValidData 32 t.parent_hash ∧
  OptP (ValidData 8) t.nonce ∧ OptP (ValidData 20) t.miner ∧ 0 ≤ t.difficulty ∧
  OptP (fun n : Int => 0 ≤ n) t.total_difficulty ∧ 0 ≤ t.size ∧ 0 ≤ t.gas_limit ∧
  0 ≤ t.gas_used ∧ 0 ≤ t.base_fee_per_gas ∧ 0 ≤ t.timestamp ∧ ValidTxs t.transactions ∧
  (∀ x ∈ t.uncles, ValidData 32 x) ∧ ValidData 32 t.sha3_uncles ∧
  OptP (ValidData 256) t.logs_bloom ∧ ValidData 32 t.transactions_root ∧
  ValidData 32 t.state_root ∧ ValidData 32 t.receipts_root ∧ ValidBytes t.extra_data

instance : DecidablePred ValidBlockInfo := fun t => by
  unfold ValidBlockInfo; infer_instance

theorem rtBlockInfo (rule : AddrCase) (t : BlockInfo) (h : ValidBlockInfo t) :
    structureBlockInfo (unstructureBlockInfo rule t) = .ok (canonBlockInfo t) := by
  obtain ⟨h1, h2, h3, h4, h5, h6, h7, h8, h9, h10, h11, h12, h13, h14, h15, h16, h17,
    h18, h19, h20⟩ := h
  simp +decide only [structureBlockInfo, unstructureBlockInfo, canonBlockInfo, withObj_obj,
    alistLookup_cons, alistLookup_nil, if_true, if_false, sReq_some, rt_uInt h1,
    rt_optData h2, rt_uData h3, rt_optData h4, rt_optAddr rule h5, rt_uInt h6,
    rt_optInt h7, rt_uInt h8, rt_uInt h9, rt_uInt h10, rt_uAmount h11, rt_uInt h12,
    rt_uTxs rule t.transactions h13, rt_uList (fun x hx => rt_uData (h14 x hx)),
    rt_uData h15, rt_optData h16, rt_uData h17, rt_uData h18, rt_uData h19,
    rt_uBytes h20, exc_ok_bind]


/-- Validity of an `RPCError` domain instance: the code is any integer, the
optional payload is bytes. -/
def ValidRPCError (t : RPCError) : Prop := OptP ValidBytes t.data

instance : DecidablePred ValidRPCError := fun t => by
  unfold ValidRPCError; infer_instance

theorem rtRPCError (t : RPCError) (h : ValidRPCError t) :
    structureRPCError (unstructureRPCError t) = .ok t := by
  simp +decide only [structureRPCError, unstructureRPCError, withObj_obj, alistLookup_cons,
    alistLookup_nil, if_true, if_false, sReq_some, intoPlainInt_int, intoStr_str,
    rt_optBytes h, exc_ok_bind]

/-- Validity of a `Type2Transaction` domain instance. -/
def ValidType2Transaction (t : Type2Transaction) : Prop :=
  0 ≤ t.chain_id ∧ 0 ≤ t.value ∧ 0 ≤ t.gas ∧ 0 ≤ t.max_fee_per_gas ∧
  0 ≤ t.max_priority_fee_per_gas ∧ 0 ≤ t.nonce ∧ OptP (ValidData 20) t.«to» ∧
  OptP ValidBytes t.data

instance : DecidablePred ValidType2Transaction := fun t => by
  unfold ValidType2Transaction; infer_instance

theorem structureType2Tx_obj (m : List (Str × JSON)) :
    structureType2Tx (.obj m) =
      onKey (alistLookup (ofString "type") m)
        (ofString "Transaction is missing the type field")
        (fun tv => intoIntFromHex tv >>= fun t =>
          if t = 2 then structureType2Inner m
          else .error (.structuring (ofString "Expected transaction type 2"))) := rfl

theorem intoIntFromHex_0x2 : intoIntFromHex (uInt 2) = .ok 2 :=
  intoIntFromHex_pyHex (by norm_num)

theorem natHexStr_two : natHexStr 2 = [50] := by
  unfold natHexStr
  rw [if_neg (by norm_num), show (2 : Nat) = 1 + 1 from rfl, natHexDigits]
  norm_num
  rw [natHexDigits]
  decide

theorem uInt_two : uInt 2 = JSON.str (ofString "0x2") := by
  unfold uInt pyHex
  rw [if_neg (by norm_num)]
  congr 1
  rw [show Int.toNat 2 = 2 from rfl, natHexStr_two]
  decide

@[simp] theorem dictSet_nil (k : Str) (v : JSON) : dictSet [] k v = [(k, v)] := rfl

@[simp] theorem dictSet_cons (k' : Str) (v' : JSON) (rest : List (Str × JSON)) (k : Str)
    (v : JSON) : dictSet ((k', v') :: rest) k v =
      if k' = k then (k, v) :: rest else (k', v') :: dictSet rest k v := rfl

theorem rtType2Transaction (rule : AddrCase) (t : Type2Transaction)
    (h : ValidType2Transaction t) :
    structureType2Tx (unstructureType2Tx rule t) = .ok t := by
  obtain ⟨h1, h2, h3, h4, h5, h6, h7, h8⟩ := h
  rw [unstructureType2Tx, structureType2Tx_obj]
  simp +decide only [unstructureType2Inner, structureType2Inner, dictSet_cons, dictSet_nil,
    alistLookup_cons, alistLookup_nil, if_true, if_false, onKey_some, sReq_some,
    intoIntFromHex_0x2, rt_uInt h1, rt_uAmount h2, rt_uInt h3, rt_uAmount h4,
    rt_uAmount h5, rt_uInt h6, rt_optAddr rule h7, rt_optBytes h8, exc_ok_bind]

/-- Validity of an `EthCallParams` domain instance. -/
def ValidEthCallParams (t : EthCallParams) : Prop :=
  ValidData 20 t.«to» ∧ OptP (ValidData 20) t.from_ ∧ OptP (fun n : Int => 0 ≤ n) t.gas ∧
  0 ≤ t.gas_price ∧ 0 ≤ t.value ∧ OptP ValidBytes t.data

instance : DecidablePred ValidEthCallParams := fun t => by
  unfold ValidEthCallParams; infer_instance

theorem rtEthCallParams (rule : AddrCase) (t : EthCallParams) (h : ValidEthCallParams t) :
    structureEthCallParams (unstructureEthCallParams rule t) = .ok t := by
  obtain ⟨h1, h2, h3, h4, h5, h6⟩ := h
  simp +decide only [structureEthCallParams, unstructureEthCallParams, withObj_obj,
    alistLookup_cons, alistLookup_nil, if_true, if_false, sReq_some, rt_uAddr rule h1,
    rt_optAddr rule h2, rt_optInt h3, rt_uInt h4, rt_uAmount h5, rt_optBytes h6,
    exc_ok_bind]

/-- Validity of an `EstimateGasParams` domain instance. -/
def ValidEstimateGasParams (t : EstimateGasParams) : Prop :=
  ValidData 20 t.from_ ∧ OptP (ValidData 20) t.«to» ∧ OptP (fun n : Int => 0 ≤ n) t.gas ∧
  0 ≤ t.gas_price ∧ OptP (fun n : Int => 0 ≤ n) t.nonce ∧ 0 ≤ t.value ∧
  OptP ValidBytes t.data

instance : DecidablePred ValidEstimateGasParams := fun t => by
  unfold ValidEstimateGasParams; infer_instance

theorem rtEstimateGasParams (rule : AddrCase) (t : EstimateGasParams)
    (h : ValidEstimateGasParams t) :
    structureEstimateGasParams (unstructureEstimateGasParams rule t) = .ok t := by
  obtain ⟨h1, h2, h3, h4, h5, h6, h7⟩ := h
  simp +decide only [structureEstimateGasParams, unstructureEstimateGasParams, withObj_obj,
    alistLookup_cons, alistLookup_nil, if_true, if_false, sReq_some, rt_uAddr rule h1,
    rt_optAddr rule h2, rt_optInt h3, rt_uInt h4, rt_optInt h5, rt_uAmount h6,
    rt_optBytes h7, exc_ok_bind]

/-- Validity of a block reference. -/
def ValidBlockRef : BlockRef → Prop
  | .num n => 0 ≤ n
  | .label _ => True

instance : DecidablePred ValidBlockRef := fun r =>
  match r with
  | .num n => inferInstanceAs (Decidable (0 ≤ n))
  | .label _ => Decidable.isTrue trivial

theorem rt_uBlockRef {r : BlockRef} (h : ValidBlockRef r) :
    sBlockRef (uBlockRef r) = .ok r := by
  cases r with
  | num n =>
    show sBlockRef (uInt n) = .ok (.num n)
    unfold sBlockRef
    rw [show intoIntFromHex (uInt n) = .ok n from rt_uInt h, excMap_ok, sAlt_ok]
  | label l => cases l <;> rfl

/-- Validity of a filter address union instance. -/
def ValidAddrsField : AddrsField → Prop
  | .one a => ValidData 20 a
  | .many as => ∀ x ∈ as, ValidData 20 x

instance : DecidablePred ValidAddrsField := fun a =>
  match a with
  | .one x => inferInstanceAs (Decidable (ValidData 20 x))
  | .many xs => inferInstanceAs (Decidable (∀ x ∈ xs, ValidData 20 x))

@[simp] theorem intoBytesFromHex_arr (xs : List JSON) :
    intoBytesFromHex (.arr xs) =
      .error (.structuring (ofString "The value must be a 0x-prefixed hex-encoded data")) := rfl

theorem intoTypedData_arr (n : Nat) (xs : List JSON) :
    intoTypedData n (.arr xs) =
      .error (.structuring (ofString "The value must be a 0x-prefixed hex-encoded data")) := rfl

theorem rt_uAddrsField (rule : AddrCase) {a : AddrsField} (h : ValidAddrsField a) :
    sAddrsField (uAddrsField rule a) = .ok a := by
  cases a with
  | one x =>
    show sAddrsField (.str (checksumOf rule x)) = .ok (.one x)
    unfold sAddrsField
    rw [rt_uAddr rule h, excMap_ok, sAlt_ok]
  | many xs =>
    show sAddrsField (uList (fun y => .str (checksumOf rule y)) xs) = .ok (.many xs)
    unfold sAddrsField
    rw [show uList (fun y => JSON.str (checksumOf rule y)) xs =
      .arr (xs.map (fun y => .str (checksumOf rule y))) from rfl, intoTypedData_arr,
      excMap_err, sAlt_structuring, sList_arr,
      mapExc_map _ _ _ (fun x hx => rt_uAddr rule (h x hx)), excMap_ok]

/-- Validity of a filter topic element instance. -/
def ValidTopicItem : TopicItem → Prop
  | .one t => ValidData 32 t
  | .many ts => ∀ x ∈ ts, ValidData 32 x

instance : DecidablePred ValidTopicItem := fun a =>
  match a with
  | .one x => inferInstanceAs (Decidable (ValidData 32 x))
  | .many xs => inferInstanceAs (Decidable (∀ x ∈ xs, ValidData 32 x))

theorem rt_uTopicItem {a : TopicItem} (h : ValidTopicItem a) :
    sTopicItem (uTopicItem a) = .ok a := by
  cases a with
  | one x =>
    show sTopicItem (uBytes x) = .ok (.one x)
    unfold sTopicItem
    rw [rt_uData h, excMap_ok, sAlt_ok]
  | many xs =>
    show sTopicItem (uList uBytes xs) = .ok (.many xs)
    unfold sTopicItem
    rw [show uList uBytes xs = .arr (xs.map uBytes) from rfl, intoTypedData_arr,
      excMap_err, sAlt_structuring, sList_arr,
      mapExc_map _ _ _ (fun x hx => rt_uData (h x hx)), excMap_ok]

theorem rt_topicElem {x : Option TopicItem} (h : OptP ValidTopicItem x) :
    sNoneOr sTopicItem (uOpt uTopicItem x) = .ok x := by
  cases x with
  | none => rfl
  | some ti =>
    show sNoneOr sTopicItem (uTopicItem ti) = .ok (some ti)
    rw [sNoneOr_ne_null _ (by cases ti <;> simp [uTopicItem, uBytes, uList]),
      rt_uTopicItem h, excSome_ok]

theorem rt_optBlockRef {o : Option BlockRef} (h : OptP ValidBlockRef o) :
    sOptField sBlockRef (some (uOpt uBlockRef o)) = .ok o :=
  rt_opt_generic
    (fun x => by cases x with
      | num n => simp [uBlockRef, uInt]
      | label l => cases l <;> simp [uBlockRef, uBlockLabel])
    (fun _ hx => rt_uBlockRef hx) h

theorem rt_optAddrsField (rule : AddrCase) {o : Option AddrsField}
    (h : OptP ValidAddrsField o) :
    sOptField sAddrsField (some (uOpt (uAddrsField rule) o)) = .ok o :=
  rt_opt_generic
    (fun x => by cases x <;> simp [uAddrsField, uList])
    (fun _ hx => rt_uAddrsField rule hx) h

theorem rt_optTopics {o : Option (List (Option TopicItem))}
    (h : OptP (fun items => ∀ x ∈ items, OptP ValidTopicItem x) o) :
    sOptField (sList (sNoneOr sTopicItem)) (some (uOpt (uList (uOpt uTopicItem)) o)) =
      .ok o :=
  rt_opt_generic (fun x => by simp [uList])
    (fun items hi => rt_uList (fun x hx => rt_topicElem (hi x hx))) h

/-- Validity of a `FilterParams` domain instance. -/
def ValidFilterParams (t : FilterParams) : Prop :=
  OptP ValidBlockRef t.from_block ∧ OptP ValidBlockRef t.to_block ∧
  OptP ValidAddrsField t.address ∧
  OptP (fun items => ∀ x ∈ items, OptP ValidTopicItem x) t.topics

instance : DecidablePred ValidFilterParams := fun t => by
  unfold ValidFilterParams; infer_instance

theorem rtFilterParams (rule : AddrCase) (t : FilterParams) (h : ValidFilterParams t) :
    structureFilterParams (unstructureFilterParams rule t) = .ok t := by
  obtain ⟨h1, h2, h3, h4⟩ := h
  simp +decide only [structureFilterParams, unstructureFilterParams, withObj_obj,
    alistLookup_cons, alistLookup_nil, if_true, if_false, rt_optBlockRef h1,
    rt_optBlockRef h2, rt_optAddrsField rule h3, rt_optTopics h4, exc_ok_bind]

/-- Validity of a `FilterParamsEIP234` domain instance. -/
def ValidFilterParamsEIP234 (t : FilterParamsEIP234) : Prop :=
  ValidData 32 t.block_hash ∧ OptP ValidAddrsField t.address ∧
  OptP (fun items => ∀ x ∈ items, OptP ValidTopicItem x) t.topics

instance : DecidablePred ValidFilterParamsEIP234 := fun t => by
  unfold ValidFilterParamsEIP234; infer_instance

theorem rtFilterParamsEIP234 (rule : AddrCase) (t : FilterParamsEIP234)
    (h : ValidFilterParamsEIP234 t) :
    structureFilterParamsEIP234 (unstructureFilterParamsEIP234 rule t) = .ok t := by
  obtain ⟨h1, h2, h3⟩ := h
  simp +decide only [structureFilterParamsEIP234, unstructureFilterParamsEIP234, withObj_obj,
    alistLookup_cons, alistLookup_nil, if_true, if_false, sReq_some, rt_uData h1,
    rt_optAddrsField rule h2, rt_optTopics h3, exc_ok_bind]


/-! ## Exact characterisation of the hex parsers

`encItems` describes the digit region accepted by `int(s, 0)` after the `0x`
prefix: each digit optionally preceded by a single underscore (so a leading
underscore and single underscores between digits are accepted, doubled or
trailing underscores are not), followed by whitespace. -/

/-- Encode a list of (preceded-by-underscore, digit character) items. -/
def encItems : List (Bool × Nat) → List Nat
  | [] => []
  | (u, d) :: rest => (if u then [95, d] else [d]) ++ encItems rest

/-- The digit characters of an item list. -/
def itemsDigits (items : List (Bool × Nat)) : List Nat := items.map (fun p => p.2)

/-- The strings accepted by `int(s, 0)` after the `0x` prefix. -/
def IntHexTail (cs : List Nat) : Prop :=
  ∃ (items : List (Bool × Nat)) (ws : List Nat),
    items ≠ [] ∧ (∀ p ∈ items, isHexDig p.2 = true) ∧ (∀ c ∈ ws, pyIsSpace c = true) ∧
    cs = encItems items ++ ws

theorem space_not_hexDig {c : Nat} (h : pyIsSpace c = true) : isHexDig c = false := by
  cases hd : isHexDig c
  · rfl
  · rw [isHexDig_not_space hd] at h
    cases h

theorem space_ne_underscore {c : Nat} (h : pyIsSpace c = true) : c ≠ 95 := by
  intro he
  subst he
  simp [pyIsSpace] at h

theorem asciiWS_not_hexDig {c : Nat} (h : asciiWS c = true) : isHexDig c = false := by
  cases hd : isHexDig c
  · rfl
  · rw [isHexDig_not_asciiWS hd] at h
    cases h

theorem hexRun0_ws (ws : List Nat) (acc : Nat) (hws : ∀ c ∈ ws, pyIsSpace c = true) :
    hexRun 0 ws acc = some acc := by
  cases ws with
  | nil => rfl
  | cons c cs =>
    have hc : pyIsSpace c = true := hws c (by simp)
    have hall : cs.all pyIsSpace = true :=
      List.all_eq_true.mpr (fun x hx => hws x (by simp [hx]))
    simp [hexRun, space_not_hexDig hc, space_ne_underscore hc, hc, hall]

theorem hexRun0_enc (items : List (Bool × Nat)) (ws : List Nat) :
    ∀ acc : Nat, (∀ p ∈ items, isHexDig p.2 = true) → (∀ c ∈ ws, pyIsSpace c = true) →
    hexRun 0 (encItems items ++ ws) acc = some ((itemsDigits items).foldl hexStep acc) := by
  induction items with
  | nil =>
    intro acc _ hws
    simp only [encItems, List.nil_append, itemsDigits, List.map_nil, List.foldl_nil]
    exact hexRun0_ws ws acc hws
  | cons p rest ih =>
    intro acc hitems hws
    obtain ⟨u, d⟩ := p
    have hd : isHexDig d = true := hitems (u, d) (by simp)
    have hrest : ∀ q ∈ rest, isHexDig q.2 = true := fun q hq => hitems q (by simp [hq])
    cases u
    · simp only [encItems, if_false, Bool.false_eq_true, List.cons_append, List.nil_append,
        hexRun, hd, if_true, itemsDigits, List.map_cons, List.foldl_cons]
      exact ih (hexStep acc d) hrest hws
    · simp only [encItems, if_true, List.cons_append, List.nil_append, itemsDigits,
        List.map_cons, List.foldl_cons]
      show hexRun 0 (95 :: d :: (encItems rest ++ ws)) acc = _
      simp only [hexRun, not_isHexDig_underscore, Bool.false_eq_true, if_false, if_pos rfl,
        if_neg (by omega : ¬(0 : Nat) = 1), hd, if_true]
      exact ih (hexStep acc d) hrest hws

theorem hexStart_enc (items : List (Bool × Nat)) (ws : List Nat) (hne : items ≠ [])
    (hitems : ∀ p ∈ items, isHexDig p.2 = true) (hws : ∀ c ∈ ws, pyIsSpace c = true) :
    hexStart (encItems items ++ ws) = some ((itemsDigits items).foldl hexStep 0) := by
  match items, hne with
  | (u, d) :: rest, _ =>
    have hd : isHexDig d = true := hitems (u, d) (by simp)
    have hrest : ∀ q ∈ rest, isHexDig q.2 = true := fun q hq => hitems q (by simp [hq])
    cases u
    · show hexRun 2 (d :: (encItems rest ++ ws)) 0 = _
      simp only [hexRun, hd, if_true, itemsDigits, List.map_cons, List.foldl_cons]
      exact hexRun0_enc rest ws (hexStep 0 d) hrest hws
    · show hexRun 2 (95 :: d :: (encItems rest ++ ws)) 0 = _
      simp only [hexRun, not_isHexDig_underscore, Bool.false_eq_true, if_false, if_pos rfl,
        if_neg (by omega : ¬(2 : Nat) = 1), hd, if_true, itemsDigits, List.map_cons,
        List.foldl_cons]
      exact hexRun0_enc rest ws (hexStep 0 d) hrest hws

theorem hexRun_inv (cs : List Nat) : ∀ (st acc n : Nat),
    hexRun st cs acc = some n →
    ∃ items ws, (∀ p ∈ items, isHexDig p.2 = true) ∧ (∀ c ∈ ws, pyIsSpace c = true) ∧
      cs = encItems items ++ ws ∧ n = (itemsDigits items).foldl hexStep acc ∧
      (st = 1 → ∃ d rest, items = (false, d) :: rest) ∧ (st ≠ 0 → items ≠ []) := by
  induction cs with
  | nil =>
    intro st acc n h
    simp only [hexRun] at h
    split_ifs at h with hst
    · refine ⟨[], [], ?_, ?_, rfl, ?_, ?_, ?_⟩
      · intro p hp; simp at hp
      · intro c hc; simp at hc
      · simp only [itemsDigits, List.map_nil, List.foldl_nil]
        exact ((Option.some.injEq _ _).mp h).symm
      · intro h1; omega
      · intro h0; exact absurd hst h0
  | cons c cs ih =>
    intro st acc n h
    simp only [hexRun] at h
    by_cases hd : isHexDig c
    · rw [if_pos hd] at h
      obtain ⟨items', ws', hbp, hbs, hceq, hneq, _, _⟩ := ih 0 (hexStep acc c) n h
      refine ⟨(false, c) :: items', ws', ?_, hbs, ?_, ?_, ?_, ?_⟩
      · intro p hp
        rcases List.mem_cons.mp hp with hp | hp
        · subst hp; exact hd
        · exact hbp p hp
      · simp [encItems, hceq]
      · simp [itemsDigits, List.foldl_cons, hneq]
      · intro _; exact ⟨c, items', rfl⟩
      · intro _; simp
    · rw [if_neg hd] at h
      by_cases h95 : c = 95
      · subst h95
        rw [if_pos rfl] at h
        by_cases hst : st = 1
        · rw [if_pos hst] at h; cases h
        · rw [if_neg hst] at h
          obtain ⟨items', ws', hbp, hbs, hceq, hneq, hs1, _⟩ := ih 1 acc n h
          obtain ⟨d, rest, hdr⟩ := hs1 rfl
          subst hdr
          refine ⟨(true, d) :: rest, ws', ?_, hbs, ?_, ?_, ?_, ?_⟩
          · intro p hp
            rcases List.mem_cons.mp hp with hp | hp
            · subst hp; exact hbp (false, d) (by simp)
            · exact hbp p (by simp [hp])
          · simpa [encItems] using hceq
          · simpa [itemsDigits] using hneq
          · intro h1; exact absurd h1 hst
          · intro _; simp
      · rw [if_neg h95] at h
        by_cases hsp : pyIsSpace c
        · rw [if_pos hsp] at h
          split_ifs at h with hcond
          · refine ⟨[], c :: cs, ?_, ?_, by simp [encItems], ?_, ?_, ?_⟩
            · intro p hp; simp at hp
            · intro x hx
              rcases List.mem_cons.mp hx with hx | hx
              · subst hx; exact hsp
              · exact List.all_eq_true.mp hcond.2 x hx
            · simp only [itemsDigits, List.map_nil, List.foldl_nil]
              exact ((Option.some.injEq _ _).mp h).symm
            · intro h1; exact absurd hcond.1 (by omega)
            · intro h0; exact absurd hcond.1 h0
        · rw [if_neg hsp] at h
          cases h


/-- Encode a list of (leading-whitespace, high digit, low digit) byte
groups. -/
def encPairs : List (Str × Nat × Nat) → List Nat
  | [] => []
  | (w, c1, c2) :: rest => w ++ c1 :: c2 :: encPairs rest

/-- The byte values of a group list. -/
def pairsBytes (ps : List (Str × Nat × Nat)) : List Nat :=
  ps.map (fun p => (hexDigitVal p.2.1).getD 0 * 16 + (hexDigitVal p.2.2).getD 0)

/-- Well-formedness of a group list: whitespace runs and hex digits. -/
def PairsWF (ps : List (Str × Nat × Nat)) : Prop :=
  ∀ p ∈ ps, (∀ c ∈ p.1, asciiWS c = true) ∧ isHexDig p.2.1 = true ∧ isHexDig p.2.2 = true

/-- The strings accepted by `bytes.fromhex` after the `0x` prefix: whitespace
separated two-digit groups, whitespace never splitting a group. -/
def BytesHexTail (cs : List Nat) : Prop :=
  ∃ (ps : List (Str × Nat × Nat)) (ws : List Nat),
    PairsWF ps ∧ (∀ c ∈ ws, asciiWS c = true) ∧ cs = encPairs ps ++ ws

theorem fromhexRun_ws (ws : List Nat) (acc : List Nat)
    (hws : ∀ c ∈ ws, asciiWS c = true) : fromhexRun none ws acc = some acc.reverse := by
  induction ws with
  | nil => rfl
  | cons c cs ih =>
    have hc : asciiWS c = true := hws c (by simp)
    simp only [fromhexRun, asciiWS_not_hexDig hc, Bool.false_eq_true, if_false, hc, if_true]
    exact ih (fun x hx => hws x (by simp [hx]))

theorem fromhexRun_skipWS (w : List Nat) (cs : List Nat) (acc : List Nat)
    (hw : ∀ c ∈ w, asciiWS c = true) :
    fromhexRun none (w ++ cs) acc = fromhexRun none cs acc := by
  induction w with
  | nil => rfl
  | cons c w ih =>
    have hc : asciiWS c = true := hw c (by simp)
    simp only [List.cons_append, fromhexRun, asciiWS_not_hexDig hc, Bool.false_eq_true,
      if_false, hc, if_true]
    exact ih (fun x hx => hw x (by simp [hx]))

theorem fromhexRun_enc (ps : List (Str × Nat × Nat)) (ws : List Nat) :
    ∀ acc : List Nat, PairsWF ps → (∀ c ∈ ws, asciiWS c = true) →
    fromhexRun none (encPairs ps ++ ws) acc = some (acc.reverse ++ pairsBytes ps) := by
  induction ps with
  | nil =>
    intro acc _ hws
    simp only [encPairs, List.nil_append, pairsBytes, List.map_nil, List.append_nil]
    exact fromhexRun_ws ws acc hws
  | cons p rest ih =>
    intro acc hps hws
    obtain ⟨w, c1, c2⟩ := p
    obtain ⟨hw, h1, h2⟩ := hps (w, c1, c2) (by simp)
    have hrest : PairsWF rest := fun q hq => hps q (by simp [hq])
    show fromhexRun none ((w ++ c1 :: c2 :: encPairs rest) ++ ws) acc = _
    rw [List.append_assoc, fromhexRun_skipWS w _ acc hw]
    simp only [List.cons_append, fromhexRun, h1, h2, if_true]
    rw [show (encPairs rest).append ws = encPairs rest ++ ws from rfl,
      ih (((hexDigitVal c1).getD 0 * 16 + (hexDigitVal c2).getD 0) :: acc) hrest hws]
    simp [pairsBytes]

theorem fromhexRun_inv (cs : List Nat) : ∀ (pend : Option Nat) (acc bs : List Nat),
    fromhexRun pend cs acc = some bs →
    (pend = none → ∃ ps ws, PairsWF ps ∧ (∀ c ∈ ws, asciiWS c = true) ∧
      cs = encPairs ps ++ ws ∧ bs = acc.reverse ++ pairsBytes ps) ∧
    (∀ hi, pend = some hi → ∃ c2 ps ws, isHexDig c2 = true ∧ PairsWF ps ∧
      (∀ c ∈ ws, asciiWS c = true) ∧ cs = c2 :: (encPairs ps ++ ws) ∧
      bs = acc.reverse ++ (hi * 16 + (hexDigitVal c2).getD 0) :: pairsBytes ps) := by
  induction cs with
  | nil =>
    intro pend acc bs h
    constructor
    · intro hp
      subst hp
      refine ⟨[], [], ?_, ?_, rfl, ?_⟩
      · intro p hp; simp at hp
      · intro c hc; simp at hc
      · simp only [pairsBytes, List.map_nil, List.append_nil]
        exact ((Option.some.injEq _ _).mp h).symm
    · intro hi hp
      subst hp
      cases h
  | cons c cs ih =>
    intro pend acc bs h
    constructor
    · intro hp
      subst hp
      simp only [fromhexRun] at h
      by_cases hd : isHexDig c
      · rw [if_pos hd] at h
        obtain ⟨_, hsome⟩ := ih (some ((hexDigitVal c).getD 0)) acc bs h
        obtain ⟨c2, ps, ws, hc2, hps, hws, hceq, hbeq⟩ := hsome _ rfl
        refine ⟨([], c, c2) :: ps, ws, ?_, hws, ?_, ?_⟩
        · intro p hp
          rcases List.mem_cons.mp hp with hp | hp
          · subst hp; exact ⟨by simp, hd, hc2⟩
          · exact hps p hp
        · simp [encPairs, hceq]
        · simpa [pairsBytes] using hbeq
      · rw [if_neg hd] at h
        by_cases hsp : asciiWS c
        · rw [if_pos hsp] at h
          obtain ⟨hnone, _⟩ := ih none acc bs h
          obtain ⟨ps, ws, hps, hws, hceq, hbeq⟩ := hnone rfl
          cases ps with
          | nil =>
            refine ⟨[], c :: ws, ?_, ?_, ?_, ?_⟩
            · intro p hp; simp at hp
            · intro x hx
              rcases List.mem_cons.mp hx with hx | hx
              · subst hx; exact hsp
              · exact hws x hx
            · simpa [encPairs] using hceq
            · exact hbeq
          | cons q rest =>
            obtain ⟨w, c1, c2⟩ := q
            obtain ⟨hw, h1, h2⟩ := hps (w, c1, c2) (by simp)
            refine ⟨(c :: w, c1, c2) :: rest, ws, ?_, hws, ?_, ?_⟩
            · intro p hp
              rcases List.mem_cons.mp hp with hp | hp
              · subst hp
                refine ⟨?_, h1, h2⟩
                intro x hx
                rcases List.mem_cons.mp hx with hx | hx
                · subst hx; exact hsp
                · exact hw x hx
              · exact hps p (by simp [hp])
            · simpa [encPairs] using hceq
            · simpa [pairsBytes] using hbeq
        · rw [if_neg hsp] at h
          cases h
    · intro hi hp
      subst hp
      simp only [fromhexRun] at h
      by_cases hd : isHexDig c
      · rw [if_pos hd] at h
        obtain ⟨hnone, _⟩ :=
          ih none ((hi * 16 + (hexDigitVal c).getD 0) :: acc) bs h
        obtain ⟨ps, ws, hps, hws, hceq, hbeq⟩ := hnone rfl
        refine ⟨c, ps, ws, hd, hps, hws, by simp [hceq], ?_⟩
        simpa using hbeq
      · rw [if_neg hd] at h
        cases h


/-! ## Fixed-length wrapper types of `_rpc.py`

The per-concept lengths come from the `_length` overrides in `_rpc.py`; the
validating construction is modelled from the spec (section 4.1), since
`_typed_wrappers.py` is not among the sources. -/

/-- Log topic (32 bytes). -/
structure LogTopic where
  bytes : List Nat
  deriving DecidableEq

/-- Modelled from the spec: `construct(bytes) -> FixedLengthBytes[N] | ValidationError`
fails with a length mismatch unless the input length is exactly `_length = 32`
(the validating constructor is in `_typed_wrappers.py`, not among the sources). -/
def LogTopic.construct (b : List Nat) : Except PyErr LogTopic :=
  if b.length = 32 then .ok ⟨b⟩
  else .error (.validation (ofString "Incorrect data length"))

/-- Block hash (32 bytes). -/
structure BlockHash where
  bytes : List Nat
  deriving DecidableEq

/-- Modelled from the spec: length-validating construction, `_length = 32`. -/
def BlockHash.construct (b : List Nat) : Except PyErr BlockHash :=
  if b.length = 32 then .ok ⟨b⟩
  else .error (.validation (ofString "Incorrect data length"))

/-- Transaction hash (32 bytes). -/
structure TxHash where
  bytes : List Nat
  deriving DecidableEq

/-- Modelled from the spec: length-validating construction, `_length = 32`. -/
def TxHash.construct (b : List Nat) : Except PyErr TxHash :=
  if b.length = 32 then .ok ⟨b⟩
  else .error (.validation (ofString "Incorrect data length"))

/-- Trie hash (32 bytes). -/
structure TrieHash where
  bytes : List Nat
  deriving DecidableEq

/-- Modelled from the spec: length-validating construction, `_length = 32`. -/
def TrieHash.construct (b : List Nat) : Except PyErr TrieHash :=
  if b.length = 32 then .ok ⟨b⟩
  else .error (.validation (ofString "Incorrect data length"))

/-- Hash of block uncles (32 bytes). -/
structure UnclesHash where
  bytes : List Nat
  deriving DecidableEq

/-- Modelled from the spec: length-validating construction, `_length = 32`. -/
def UnclesHash.construct (b : List Nat) : Except PyErr UnclesHash :=
  if b.length = 32 then .ok ⟨b⟩
  else .error (.validation (ofString "Incorrect data length"))

/-- Block nonce (8 bytes). -/
structure BlockNonce where
  bytes : List Nat
  deriving DecidableEq

/-- Modelled from the spec: length-validating construction, `_length = 8`. -/
def BlockNonce.construct (b : List Nat) : Except PyErr BlockNonce :=
  if b.length = 8 then .ok ⟨b⟩
  else .error (.validation (ofString "Incorrect data length"))

/-- Bloom filter for logs (256 bytes). -/
structure LogsBloom where
  bytes : List Nat
  deriving DecidableEq

/-- Modelled from the spec: length-validating construction, `_length = 256`. -/
def LogsBloom.construct (b : List Nat) : Except PyErr LogsBloom :=
  if b.length = 256 then .ok ⟨b⟩
  else .error (.validation (ofString "Incorrect data length"))

/-! ## RPC error codes (`_rpc.py`) -/

/-- Known RPC error codes returned by providers (`RPCErrorCode`). -/
inductive RPCErrorCode where
  | SERVER_ERROR : RPCErrorCode
  | INVALID_REQUEST : RPCErrorCode
  | METHOD_NOT_FOUND : RPCErrorCode
  | INVALID_PARAMETER : RPCErrorCode
  | EXECUTION_ERROR : RPCErrorCode
  deriving DecidableEq

/-- The numeric value of each enumeration member. -/
def RPCErrorCode.value : RPCErrorCode → Int
  | .SERVER_ERROR => -32000
  | .INVALID_REQUEST => -32600
  | .METHOD_NOT_FOUND => -32601
  | .INVALID_PARAMETER => -32602
  | .EXECUTION_ERROR => 3

/-- The `RPCErrorCode(code)` enum lookup: the member with the given value, or
failure (surfacing as `None` through `parsed_code`). -/
def rpcErrorCodeOf (c : Int) : Option RPCErrorCode :=
  if c = -32000 then some .SERVER_ERROR
  else if c = -32600 then some .INVALID_REQUEST
  else if c = -32601 then some .METHOD_NOT_FOUND
  else if c = -32602 then some .INVALID_PARAMETER
  else if c = 3 then some .EXECUTION_ERROR
  else none

/-- The `parsed_code` property: the known-code classification, absent when
the code is not in the known set; it never raises. -/
def RPCError.parsed_code (e : RPCError) : Option RPCErrorCode :=
  rpcErrorCodeOf e.code

/-- The `with_code` classmethod: build an `RPCError` from a known code. -/
def RPCError.with_code (code : RPCErrorCode) (message : Str)
    (data : Option (List Nat)) : RPCError :=
  { code := code.value, message := message, data := data }

/-! ## The spec's field-name translation rule, stated in its own words -/

/-- Capitalisation as the spec words it: first letter upper, rest unchanged
(Python `str.capitalize` lowercases the rest instead; the two agree on
snake_case domain names). -/
def specCapitalize : Str → Str
  | [] => []
  | c :: cs => asciiUpper c :: cs

/-- The wire-name rule as the spec words it: strip a single trailing
underscore, split on underscores, first segment unchanged, subsequent
segments capitalised, concatenated. -/
def specCamel (s : Str) : Str :=
  match pySplitU (pyRemoveSuffixU s) with
  | [] => []
  | p :: ps => p ++ (ps.map specCapitalize).flatten

/-- Characters allowed in a snake_case domain field name: lowercase ASCII
letters, digits, underscores. -/
def SnakeName (s : Str) : Prop :=
  ∀ c ∈ s, c = 95 ∨ (97 ≤ c ∧ c ≤ 122) ∨ (48 ≤ c ∧ c ≤ 57)

instance : DecidablePred SnakeName := fun s =>
  inferInstanceAs (Decidable (∀ c ∈ s, c = 95 ∨ (97 ≤ c ∧ c ≤ 122) ∨ (48 ≤ c ∧ c ≤ 57)))

/-! ## Sample domain instances (used by the witnesses) -/

/-- A fixed checksum case rule (all lowercase) for concrete evaluations. -/
def sampleRule : AddrCase := fun _ _ => false

/-- A 20-byte address. -/
def addr20 : List Nat := List.replicate 20 171

/-- A 32-byte hash. -/
def hash32 : List Nat := List.replicate 32 18

/-- An 8-byte block nonce. -/
def nonce8 : List Nat := List.replicate 8 1

/-- A 256-byte logs bloom. -/
def bloom256 : List Nat := List.replicate 256 255

/-- A valid `TxInfo` instance. -/
def sampleTxInfo : TxInfo :=
  ⟨1, 2, hash32, some [0, 255], some hash32, 100, some 0, addr20, some addr20,
   10, 3, 21000, 5, some 7, none, 1, 2, 3⟩

/-- A valid `LogEntry` instance. -/
def sampleLogEntry : LogEntry := ⟨false, addr20, [1, 2], [hash32], 0, 1, hash32, hash32, 5⟩

/-- A valid `TxReceipt` instance. -/
def sampleTxReceipt : TxReceipt :=
  ⟨hash32, 1, some addr20, 2, 3, addr20, 4, none, hash32, 0, 2, 1,
   [sampleLogEntry], bloom256⟩

/-- A valid `BlockInfo` instance with an empty transaction-hash tuple. -/
def sampleBlockInfo : BlockInfo :=
  ⟨7, some hash32, hash32, some nonce8, some addr20, 1, some 2, 3, 4, 5, 6, 8,
   .hashes [], [hash32], hash32, some bloom256, hash32, hash32, hash32, [9]⟩

/-- A valid `RPCError` instance. -/
def sampleRPCError : RPCError := ⟨-32602, ofString "Invalid params", some [1, 2]⟩

/-- A valid `Type2Transaction` instance. -/
def sampleType2Transaction : Type2Transaction := ⟨1, 2, 3, 4, 5, 6, some addr20, some [0]⟩

/-- A valid `EthCallParams` instance. -/
def sampleEthCallParams : EthCallParams := ⟨addr20, some addr20, some 1, 0, 0, none⟩

/-- A valid `EstimateGasParams` instance. -/
def sampleEstimateGasParams : EstimateGasParams := ⟨addr20, none, none, 0, some 1, 0, some []⟩

/-- A valid `FilterParams` instance exercising every union variant. -/
def sampleFilterParams : FilterParams :=
  ⟨some (.num 1), some (.label .latest), some (.many [addr20]),
   some [none, some (.one hash32), some (.many [hash32])]⟩

/-- A valid `FilterParamsEIP234` instance. -/
def sampleFilterParamsEIP234 : FilterParamsEIP234 := ⟨hash32, some (.one addr20), none⟩


/-! ## Claim theorems -/

/-- C1: for every domain record type R in the schema (TxInfo, LogEntry,
TxReceipt, BlockInfo, RPCError, Type2Transaction, the call and filter
parameter records) and every valid instance v of R, structuring the
unstructured value recovers v (`structure(R, unstructure(v)) == v`), for
every checksum case rule. For BlockInfo the recovered value is Python-equal
(`pyEqBlockInfo`): the one divergence from structural equality is an empty
transaction tuple, whose two union variants are equal Python values. -/
theorem claim_C1_roundtrip :
    (∀ (rule : AddrCase) (t : TxInfo), ValidTxInfo t →
      structureTxInfo (unstructureTxInfo rule t) = .ok t) ∧
    (∀ (rule : AddrCase) (t : LogEntry), ValidLogEntry t →
      structureLogEntry (unstructureLogEntry rule t) = .ok t) ∧
    (∀ (rule : AddrCase) (t : TxReceipt), ValidTxReceipt t →
      structureTxReceipt (unstructureTxReceipt rule t) = .ok t) ∧
    (∀ (rule : AddrCase) (t : BlockInfo), ValidBlockInfo t →
      structureBlockInfo (unstructureBlockInfo rule t) = .ok (canonBlockInfo t) ∧
      pyEqBlockInfo (canonBlockInfo t) t = true) ∧
    (∀ t : RPCError, ValidRPCError t →
      structureRPCError (unstructureRPCError t) = .ok t) ∧
    (∀ (rule : AddrCase) (t : Type2Transaction), ValidType2Transaction t →
      structureType2Tx (unstructureType2Tx rule t) = .ok t) ∧
    (∀ (rule : AddrCase) (t : EthCallParams), ValidEthCallParams t →
      structureEthCallParams (unstructureEthCallParams rule t) = .ok t) ∧
    (∀ (rule : AddrCase) (t : EstimateGasParams), ValidEstimateGasParams t →
      structureEstimateGasParams (unstructureEstimateGasParams rule t) = .ok t) ∧
    (∀ (rule : AddrCase) (t : FilterParams), ValidFilterParams t →
      structureFilterParams (unstructureFilterParams rule t) = .ok t) ∧
    (∀ (rule : AddrCase) (t : FilterParamsEIP234), ValidFilterParamsEIP234 t →
      structureFilterParamsEIP234 (unstructureFilterParamsEIP234 rule t) = .ok t) :=
  ⟨rtTxInfo, rtLogEntry, rtTxReceipt,
   fun rule t h => ⟨rtBlockInfo rule t h, pyEqBlockInfo_canon t⟩,
   rtRPCError, rtType2Transaction, rtEthCallParams, rtEstimateGasParams,
   rtFilterParams, rtFilterParamsEIP234⟩

set_option maxRecDepth 8192 in
/-- Witness for C1: the round trip evaluated on one concrete valid instance
of each record type. -/
theorem claim_C1_roundtrip_witness :
    structureTxInfo (unstructureTxInfo sampleRule sampleTxInfo) = .ok sampleTxInfo ∧
    structureLogEntry (unstructureLogEntry sampleRule sampleLogEntry) = .ok sampleLogEntry ∧
    structureTxReceipt (unstructureTxReceipt sampleRule sampleTxReceipt) = .ok sampleTxReceipt ∧
    (structureBlockInfo (unstructureBlockInfo sampleRule sampleBlockInfo) =
        .ok (canonBlockInfo sampleBlockInfo) ∧
      pyEqBlockInfo (canonBlockInfo sampleBlockInfo) sampleBlockInfo = true) ∧
    structureRPCError (unstructureRPCError sampleRPCError) = .ok sampleRPCError ∧
    structureType2Tx (unstructureType2Tx sampleRule sampleType2Transaction) =
      .ok sampleType2Transaction ∧
    structureEthCallParams (unstructureEthCallParams sampleRule sampleEthCallParams) =
      .ok sampleEthCallParams ∧
    structureEstimateGasParams
        (unstructureEstimateGasParams sampleRule sampleEstimateGasParams) =
      .ok sampleEstimateGasParams ∧
    structureFilterParams (unstructureFilterParams sampleRule sampleFilterParams) =
      .ok sampleFilterParams ∧
    structureFilterParamsEIP234
        (unstructureFilterParamsEIP234 sampleRule sampleFilterParamsEIP234) =
      .ok sampleFilterParamsEIP234 :=
  ⟨claim_C1_roundtrip.1 sampleRule sampleTxInfo (by decide),
   claim_C1_roundtrip.2.1 sampleRule sampleLogEntry (by decide),
   claim_C1_roundtrip.2.2.1 sampleRule sampleTxReceipt (by decide),
   claim_C1_roundtrip.2.2.2.1 sampleRule sampleBlockInfo (by decide),
   claim_C1_roundtrip.2.2.2.2.1 sampleRPCError (by decide),
   claim_C1_roundtrip.2.2.2.2.2.1 sampleRule sampleType2Transaction (by decide),
   claim_C1_roundtrip.2.2.2.2.2.2.1 sampleRule sampleEthCallParams (by decide),
   claim_C1_roundtrip.2.2.2.2.2.2.2.1 sampleRule sampleEstimateGasParams (by decide),
   claim_C1_roundtrip.2.2.2.2.2.2.2.2.1 sampleRule sampleFilterParams (by decide),
   claim_C1_roundtrip.2.2.2.2.2.2.2.2.2 sampleRule sampleFilterParamsEIP234 (by decide)⟩

/-- C3: for every non-negative integer n, structuring the string produced by
unstructuring n recovers n (`intFromHex(intToHex(n)) == n`), and for every
byte sequence b, structuring the string produced by unstructuring b recovers
b (`bytesFromHex(bytesToHex(b)) == b`). -/
theorem claim_C3_hex_roundtrip :
    (∀ n : Int, 0 ≤ n → intoIntFromHex (.str (pyHex n)) = .ok n) ∧
    (∀ b : List Nat, (∀ v ∈ b, v < 256) →
      intoBytesFromHex (.str (bytesToHex b)) = .ok b) :=
  ⟨fun _ h => intoIntFromHex_pyHex h, fun _ h => intoBytesFromHex_bytesToHex h⟩

/-- Witness for C3 at n = 255 and b = [0, 171, 255]. -/
theorem claim_C3_hex_roundtrip_witness :
    intoIntFromHex (.str (pyHex 255)) = .ok 255 ∧
    intoBytesFromHex (.str (bytesToHex [0, 171, 255])) = .ok [0, 171, 255] :=
  ⟨claim_C3_hex_roundtrip.1 255 (by norm_num),
   claim_C3_hex_roundtrip.2 [0, 171, 255] (by decide)⟩

/-- C8: for every RPCError value, `parsed_code` returns the enumeration
member whose value equals the code when the code is in the known set
(-32000, -32600, -32601, -32602, 3), and `none` for every other code; it is
a total function, so it never fails. -/
theorem claim_C8_parsed_code : ∀ e : RPCError,
    (∀ x : RPCErrorCode, e.parsed_code = some x ↔ e.code = x.value) ∧
    (e.parsed_code = none ↔
      ¬(e.code = -32000 ∨ e.code = -32600 ∨ e.code = -32601 ∨
        e.code = -32602 ∨ e.code = 3)) := by
  intro e
  constructor
  · intro x
    unfold RPCError.parsed_code rpcErrorCodeOf
    cases x <;>
      · simp only [RPCErrorCode.value]
        split_ifs <;> simp_all
  · unfold RPCError.parsed_code rpcErrorCodeOf
    split_ifs <;> simp_all

/-- C10: for every known code, message and optional data, `with_code`
produces an RPCError whose code is the member's value and whose
`parsed_code` recovers the member. -/
theorem claim_C10_with_code : ∀ (c : RPCErrorCode) (m : Str) (d : Option (List Nat)),
    (RPCError.with_code c m d).code = c.value ∧
    (RPCError.with_code c m d).parsed_code = some c := by
  intro c m d
  refine ⟨rfl, ?_⟩
  cases c <;> rfl


/-- C4: structuring into the type-2 transaction variant requires a `type`
field, structures it as a hex integer first, and fails with the variant
mismatch error when it is not 2 — regardless of (and before) any other field;
with `"type": "0x1"` it fails, with `"type": "0x2"` (as produced by
unstructuring) it succeeds; and unstructuring first builds the inner record
mapping and then inserts `"type": "0x2"` into the result. -/
theorem claim_C4_discriminator :
    (∀ m : List (Str × JSON), alistLookup (ofString "type") m = none →
      structureType2Tx (.obj m) =
        .error (.structuring (ofString "Transaction is missing the type field"))) ∧
    (∀ j : JSON, (∀ m, j ≠ .obj m) →
      structureType2Tx j =
        .error (.structuring (ofString "Transaction must be a mapping type"))) ∧
    (∀ (m : List (Str × JSON)) (tv : JSON) (k : Int),
      alistLookup (ofString "type") m = some tv → intoIntFromHex tv = .ok k → k ≠ 2 →
      structureType2Tx (.obj m) =
        .error (.structuring (ofString "Expected transaction type 2"))) ∧
    (∀ m : List (Str × JSON),
      alistLookup (ofString "type") m = some (.str (ofString "0x1")) →
      structureType2Tx (.obj m) =
        .error (.structuring (ofString "Expected transaction type 2"))) ∧
    (∀ (rule : AddrCase) (t : Type2Transaction), ValidType2Transaction t →
      structureType2Tx (unstructureType2Tx rule t) = .ok t) ∧
    (∀ (rule : AddrCase) (t : Type2Transaction),
      unstructureType2Tx rule t =
        .obj (dictSet (unstructureType2Inner rule t) (ofString "type") (uInt 2))) ∧
    (∀ (rule : AddrCase) (t : Type2Transaction), ∃ kvs,
      unstructureType2Tx rule t = .obj kvs ∧
      alistLookup (ofString "type") kvs = some (.str (ofString "0x2"))) := by
  refine ⟨?_, ?_, ?_, ?_, rtType2Transaction, fun _ _ => rfl, ?_⟩
  · intro m hm
    rw [structureType2Tx_obj, hm, onKey_none]
  · intro j hj
    cases j
    case obj m => exact absurd rfl (hj m)
    all_goals rfl
  · intro m tv k hm hk hne
    rw [structureType2Tx_obj, hm, onKey_some, hk, exc_ok_bind, if_neg hne]
  · intro m hm
    rw [structureType2Tx_obj, hm, onKey_some,
      show intoIntFromHex (.str (ofString "0x1")) = .ok 1 from rfl, exc_ok_bind,
      if_neg (by norm_num)]
  · intro rule t
    refine ⟨_, rfl, ?_⟩
    simp +decide only [unstructureType2Inner, dictSet_cons, dictSet_nil, alistLookup_cons,
      alistLookup_nil, if_true, if_false]
    rw [uInt_two]

/-- Witness for C4: the discriminator check short-circuits on a mapping with
`"type": "0x1"` even though another field is malformed hex; the round trip
succeeds on a concrete valid transaction; a non-mapping and a mapping
without `type` fail. -/
theorem claim_C4_discriminator_witness :
    structureType2Tx (.obj [(ofString "type", .str (ofString "0x1")),
        (ofString "chainId", .str (ofString "0xzz"))]) =
      .error (.structuring (ofString "Expected transaction type 2")) ∧
    structureType2Tx (unstructureType2Tx sampleRule sampleType2Transaction) =
      .ok sampleType2Transaction ∧
    structureType2Tx (.arr []) =
      .error (.structuring (ofString "Transaction must be a mapping type")) ∧
    structureType2Tx (.obj []) =
      .error (.structuring (ofString "Transaction is missing the type field")) :=
  ⟨claim_C4_discriminator.2.2.2.1 [(ofString "type", .str (ofString "0x1")),
      (ofString "chainId", .str (ofString "0xzz"))] rfl,
   claim_C4_discriminator.2.2.2.2.1 sampleRule sampleType2Transaction (by decide),
   claim_C4_discriminator.2.1 (.arr []) (fun m => by simp),
   claim_C4_discriminator.1 [] rfl⟩

theorem pySplitU_ne_nil (s : Str) : pySplitU s ≠ [] := by
  induction s with
  | nil => simp [pySplitU]
  | cons c cs ih =>
    by_cases h : c = 95
    · simp [pySplitU, h]
    · simp only [pySplitU, if_neg h]
      cases hs : pySplitU cs with
      | nil => simp [consHead]
      | cons p ps => simp [consHead]

theorem pySplitU_mem (s : Str) : ∀ seg ∈ pySplitU s, ∀ c ∈ seg, c ∈ s := by
  induction s with
  | nil =>
    intro seg hseg c hc
    simp only [pySplitU, List.mem_singleton] at hseg
    subst hseg
    simp at hc
  | cons a s ih =>
    intro seg hseg c hc
    by_cases h : a = 95
    · rw [pySplitU, if_pos h] at hseg
      rcases List.mem_cons.mp hseg with hseg | hseg
      · subst hseg; simp at hc
      · exact List.mem_cons_of_mem a (ih seg hseg c hc)
    · rw [pySplitU, if_neg h] at hseg
      cases hs : pySplitU s with
      | nil => exact absurd hs (pySplitU_ne_nil s)
      | cons p ps =>
        rw [hs] at hseg
        simp only [consHead, List.mem_cons] at hseg
        rcases hseg with hseg | hseg
        · subst hseg
          rcases List.mem_cons.mp hc with hc | hc
          · subst hc; simp
          · exact List.mem_cons_of_mem a (ih p (by rw [hs]; simp) c hc)
        · exact List.mem_cons_of_mem a (ih seg (by rw [hs]; simp [hseg]) c hc)

theorem pyRemoveSuffixU_mem {s : Str} {c : Nat} (h : c ∈ pyRemoveSuffixU s) : c ∈ s := by
  unfold pyRemoveSuffixU at h
  split_ifs at h
  · exact (List.dropLast_sublist _).subset h
  · exact h

theorem map_asciiLower_id (seg : Str)
    (h : ∀ c ∈ seg, c = 95 ∨ (97 ≤ c ∧ c ≤ 122) ∨ (48 ≤ c ∧ c ≤ 57)) :
    seg.map asciiLower = seg := by
  induction seg with
  | nil => rfl
  | cons c cs ih =>
    have hc := h c (by simp)
    simp only [List.map_cons, ih (fun x hx => h x (by simp [hx])), List.cons.injEq, and_true]
    unfold asciiLower
    rw [if_neg (by omega)]

/-- C5: for every snake_case domain field name, the wire name is computed by
stripping a single trailing underscore, splitting on underscores, and
concatenating the first segment unchanged with each subsequent segment
capitalised; on such names the code's `str.capitalize` (which lowercases the
rest of a segment) agrees with the spec's rule (first letter upper, rest
unchanged). In particular `max_fee_per_gas` maps to `maxFeePerGas` and
`from_` to `from`, and the same `wireKey` translation is the one applied by
the record handlers in both directions (the unstructured mapping holds each
field under its translated key, where structuring looks it up). -/
theorem claim_C5_camel_case :
    (∀ s : Str, SnakeName s → toCamelCase s = specCamel s) ∧
    toCamelCase (ofString "max_fee_per_gas") = ofString "maxFeePerGas" ∧
    toCamelCase (ofString "from_") = ofString "from" ∧
    wireKey "max_fee_per_gas" = ofString "maxFeePerGas" ∧
    wireKey "from_" = ofString "from" ∧
    (∀ (rule : AddrCase) (t : TxInfo), ∃ kvs,
      unstructureTxInfo rule t = .obj kvs ∧
      alistLookup (wireKey "max_fee_per_gas") kvs = some (uOpt uAmount t.max_fee_per_gas) ∧
      alistLookup (wireKey "from_") kvs = some (.str (checksumOf rule t.from_))) := by
  refine ⟨?_, by decide, by decide, by decide, by decide, ?_⟩
  · intro s hs
    unfold toCamelCase specCamel
    cases hsplit : pySplitU (pyRemoveSuffixU s) with
    | nil => rfl
    | cons p ps =>
      show p ++ (List.map pyCapitalize ps).flatten = p ++ (List.map specCapitalize ps).flatten
      have hmap : List.map pyCapitalize ps = List.map specCapitalize ps := by
        apply List.map_congr_left
        intro seg hseg
        have hmem : ∀ c ∈ seg, c = 95 ∨ (97 ≤ c ∧ c ≤ 122) ∨ (48 ≤ c ∧ c ≤ 57) := by
          intro c hc
          refine hs c (pyRemoveSuffixU_mem (pySplitU_mem _ seg ?_ c hc))
          rw [hsplit]
          simp [hseg]
        cases seg with
        | nil => rfl
        | cons c cs =>
          simp only [pyCapitalize, specCapitalize, List.cons.injEq, true_and]
          exact map_asciiLower_id cs (fun x hx => hmem x (by simp [hx]))
      rw [hmap]
  · intro rule t
    refine ⟨_, rfl, ?_, ?_⟩ <;>
      simp +decide only [alistLookup_cons, alistLookup_nil, if_true, if_false]

/-- Witness for C5 at the domain field name `gas_price`. -/
theorem claim_C5_camel_case_witness :
    SnakeName (ofString "gas_price") ∧
    toCamelCase (ofString "gas_price") = specCamel (ofString "gas_price") :=
  ⟨by decide, claim_C5_camel_case.1 (ofString "gas_price") (by decide)⟩

/-- C6: unstructuring an RPCError produces the `code` value as a plain JSON
integer, never a hex string; the optional `data` bytes of the same record
unstructure as a 0x-prefixed hex string; structuring accepts the plain
integer back; and the integer handler used for every other integer field of
every record produces a 0x-prefixed hex string on the non-negative integers
of valid instances. -/
theorem claim_C6_error_code_plain :
    (∀ t : RPCError, ∃ kvs, unstructureRPCError t = .obj kvs ∧
      alistLookup (ofString "code") kvs = some (.int t.code)) ∧
    (∀ t : RPCError, ValidRPCError t →
      structureRPCError (unstructureRPCError t) = .ok t) ∧
    (∀ (t : RPCError) (b : List Nat), t.data = some b → ∃ kvs,
      unstructureRPCError t = .obj kvs ∧
      alistLookup (ofString "data") kvs = some (.str (bytesToHex b)) ∧
      (bytesToHex b).take 2 = ofString "0x") ∧
    (∀ n : Int, 0 ≤ n → uInt n = .str (pyHex n) ∧ (pyHex n).take 2 = ofString "0x") ∧
    (∀ (rule : AddrCase) (t : TxInfo), ∃ kvs, unstructureTxInfo rule t = .obj kvs ∧
      alistLookup (wireKey "nonce") kvs = some (.str (pyHex t.nonce))) := by
  refine ⟨?_, rtRPCError, ?_, ?_, ?_⟩
  · intro t
    refine ⟨_, rfl, ?_⟩
    simp +decide only [unstructureRPCError, alistLookup_cons, alistLookup_nil,
      if_true, if_false]
  · intro t b hb
    refine ⟨_, rfl, ?_, take_two_0x _⟩
    rw [hb]
    simp +decide only [unstructureRPCError, uOpt, uBytes, alistLookup_cons, alistLookup_nil,
      if_true, if_false]
  · intro n h
    refine ⟨rfl, ?_⟩
    rw [pyHex, if_neg (not_lt.mpr h)]
    exact take_two_0x _
  · intro rule t
    refine ⟨_, rfl, ?_⟩
    simp +decide only [unstructureTxInfo, uInt, alistLookup_cons, alistLookup_nil,
      if_true, if_false]

/-- Witness for C6 at an RPCError with code -32602. -/
theorem claim_C6_error_code_plain_witness :
    structureRPCError (unstructureRPCError sampleRPCError) = .ok sampleRPCError ∧
    (∃ kvs, unstructureRPCError sampleRPCError = .obj kvs ∧
      alistLookup (ofString "code") kvs = some (.int (-32602))) ∧
    (uInt 5 = .str (pyHex 5) ∧ (pyHex 5).take 2 = ofString "0x") :=
  ⟨claim_C6_error_code_plain.2.1 sampleRPCError (by decide),
   claim_C6_error_code_plain.1 sampleRPCError,
   claim_C6_error_code_plain.2.2.2.1 5 (by norm_num)⟩


theorem construct_ok_iff {alpha : Type} {n : Nat} {b : List Nat} (mk : List Nat → alpha) :
    (∃ v, (if b.length = n then Except.ok (mk b)
      else Except.error (.validation (ofString "Incorrect data length")) :
        Except PyErr alpha) = .ok v) ↔ b.length = n := by
  constructor
  · rintro ⟨v, hv⟩
    by_contra hn
    rw [if_neg hn] at hv
    cases hv
  · intro h
    exact ⟨mk b, by rw [if_pos h]⟩

theorem construct_err {alpha : Type} {n : Nat} {b : List Nat} (mk : List Nat → alpha)
    (h : b.length ≠ n) :
    ∃ m, (if b.length = n then Except.ok (mk b)
      else Except.error (.validation (ofString "Incorrect data length")) :
        Except PyErr alpha) = .error (.validation m) :=
  ⟨ofString "Incorrect data length", if_neg h⟩

theorem intoTypedData_ok_iff {n : Nat} {b : List Nat} (hb : ∀ v ∈ b, v < 256) :
    (∃ v, intoTypedData n (.str (bytesToHex b)) = .ok v) ↔ b.length = n := by
  constructor
  · rintro ⟨v, hv⟩
    by_contra hn
    have herr : intoTypedData n (.str (bytesToHex b)) =
        .error (.validation (ofString "Incorrect data length")) := by
      unfold intoTypedData
      rw [intoBytesFromHex_bytesToHex hb, exc_ok_bind, if_neg hn]
    rw [herr] at hv
    cases hv
  · intro hl
    exact ⟨b, rt_uData ⟨hl, hb⟩⟩

/-- C7: for every fixed-length binary value type, construction (and
structuring) from a byte sequence succeeds exactly when its length equals
the type's constant and otherwise fails with a ValidationError; the constant
is 32 for LogTopic, BlockHash, TxHash, TrieHash and UnclesHash, 8 for
BlockNonce, and 256 for LogsBloom. -/
theorem claim_C7_fixed_length : ∀ b : List Nat,
    (((∃ v, LogTopic.construct b = .ok v) ↔ b.length = 32) ∧
      (b.length ≠ 32 → ∃ m, LogTopic.construct b = .error (.validation m))) ∧
    (((∃ v, BlockHash.construct b = .ok v) ↔ b.length = 32) ∧
      (b.length ≠ 32 → ∃ m, BlockHash.construct b = .error (.validation m))) ∧
    (((∃ v, TxHash.construct b = .ok v) ↔ b.length = 32) ∧
      (b.length ≠ 32 → ∃ m, TxHash.construct b = .error (.validation m))) ∧
    (((∃ v, TrieHash.construct b = .ok v) ↔ b.length = 32) ∧
      (b.length ≠ 32 → ∃ m, TrieHash.construct b = .error (.validation m))) ∧
    (((∃ v, UnclesHash.construct b = .ok v) ↔ b.length = 32) ∧
      (b.length ≠ 32 → ∃ m, UnclesHash.construct b = .error (.validation m))) ∧
    (((∃ v, BlockNonce.construct b = .ok v) ↔ b.length = 8) ∧
      (b.length ≠ 8 → ∃ m, BlockNonce.construct b = .error (.validation m))) ∧
    (((∃ v, LogsBloom.construct b = .ok v) ↔ b.length = 256) ∧
      (b.length ≠ 256 → ∃ m, LogsBloom.construct b = .error (.validation m))) ∧
    ((∀ v ∈ b, v < 256) →
      (((∃ v, intoTypedData 32 (.str (bytesToHex b)) = .ok v) ↔ b.length = 32) ∧
       ((∃ v, intoTypedData 8 (.str (bytesToHex b)) = .ok v) ↔ b.length = 8) ∧
       ((∃ v, intoTypedData 256 (.str (bytesToHex b)) = .ok v) ↔ b.length = 256))) := by
  intro b
  refine ⟨⟨construct_ok_iff _, construct_err _⟩, ⟨construct_ok_iff _, construct_err _⟩,
    ⟨construct_ok_iff _, construct_err _⟩, ⟨construct_ok_iff _, construct_err _⟩,
    ⟨construct_ok_iff _, construct_err _⟩, ⟨construct_ok_iff _, construct_err _⟩,
    ⟨construct_ok_iff _, construct_err _⟩, fun hb =>
      ⟨intoTypedData_ok_iff hb, intoTypedData_ok_iff hb, intoTypedData_ok_iff hb⟩⟩

/-- Witness for C7 at a 32-byte input: LogTopic construction succeeds, the
8-byte BlockNonce construction fails with a ValidationError, and structuring
as a 32-byte value succeeds. -/
theorem claim_C7_fixed_length_witness :
    (∃ v, LogTopic.construct hash32 = .ok v) ∧
    (∃ m, BlockNonce.construct hash32 = .error (.validation m)) ∧
    (∃ v, intoTypedData 32 (.str (bytesToHex hash32)) = .ok v) :=
  ⟨(claim_C7_fixed_length hash32).1.1.mpr (by decide),
   (claim_C7_fixed_length hash32).2.2.2.2.2.1.2 (by decide),
   (((claim_C7_fixed_length hash32).2.2.2.2.2.2.2 (by decide)).1).mpr (by decide)⟩


theorem intoIntFromHex_str (s : Str) :
    intoIntFromHex (.str s) =
      if s.take 2 = ofString "0x" then
        (match hexStart (s.drop 2) with
         | some n => .ok (n : Int)
         | none => .error (.valueError (ofString "invalid literal for int() with base 0")))
      else .error (.structuring (ofString "The value must be a 0x-prefixed hex-encoded integer")) := rfl

theorem intoBytesFromHex_str (s : Str) :
    intoBytesFromHex (.str s) =
      if s.take 2 = ofString "0x" then
        (match fromhexLoop (s.drop 2) [] with
         | some b => .ok b
         | none => .error (.structuring (ofString "non-hexadecimal number found in fromhex() arg")))
      else .error (.structuring (ofString "The value must be a 0x-prefixed hex-encoded data")) := rfl

instance : DecidablePred PairsWF := fun ps =>
  inferInstanceAs (Decidable (∀ p ∈ ps,
    (∀ c ∈ p.1, asciiWS c = true) ∧ isHexDig p.2.1 = true ∧ isHexDig p.2.2 = true))

/-- C2 counterexample: the claim that structuring into int succeeds exactly
on `0x` followed by hex digits, that structuring into bytes succeeds exactly
on `0x` followed by an even-length hex string, and that no input escapes as
a bare exception, is false on the code: `"0x1_2"` and `"0x12 "` contain an
underscore and a space (not hex digits) yet structure to 18; `"0x"` raises a
bare ValueError instead of a wrapped codec error; and `"0xaa bb"` contains a
space yet structures to two bytes. -/
theorem claim_C2_counterexample :
    intoIntFromHex (.str (ofString "0x1_2")) = .ok 18 ∧
    isHexDig 95 = false ∧
    intoIntFromHex (.str (ofString "0x12 ")) = .ok 18 ∧
    isHexDig 32 = false ∧
    intoIntFromHex (.str (ofString "0x")) =
      .error (.valueError (ofString "invalid literal for int() with base 0")) ∧
    intoBytesFromHex (.str (ofString "0xaa bb")) = .ok [170, 187] :=
  ⟨rfl, rfl, rfl, rfl, rfl, rfl⟩

/-- C2 amended: structuring into int fails with a wrapped codec error on a
non-string or a string without the `0x` prefix; on a `0x`-prefixed (ASCII)
string it succeeds exactly when the rest is hex digits with optional single
underscores (one allowed right after the prefix and between digits) followed
by trailing Python whitespace, parsing the digits as unsigned base 16, and on
any other `0x`-prefixed string the failure escapes as a bare ValueError.
Structuring into bytes fails with a wrapped codec error on a non-string or a
string without the `0x` prefix; on a `0x`-prefixed (ASCII) string it
succeeds exactly when the rest is adjacent hex-digit pairs separated and
surrounded by optional ASCII whitespace, and every bytes-side failure is a
wrapped codec error. -/
theorem claim_C2_amended :
    (∀ j : JSON, (∀ s, j ≠ JSON.str s) →
      intoIntFromHex j =
        .error (.structuring (ofString "The value must be a 0x-prefixed hex-encoded integer")) ∧
      intoBytesFromHex j =
        .error (.structuring (ofString "The value must be a 0x-prefixed hex-encoded data"))) ∧
    (∀ s : Str, s.take 2 ≠ ofString "0x" →
      intoIntFromHex (.str s) =
        .error (.structuring (ofString "The value must be a 0x-prefixed hex-encoded integer")) ∧
      intoBytesFromHex (.str s) =
        .error (.structuring (ofString "The value must be a 0x-prefixed hex-encoded data"))) ∧
    (∀ s : Str, (∀ c ∈ s, c < 128) → s.take 2 = ofString "0x" →
      ((∃ n, intoIntFromHex (.str s) = .ok n) ↔ IntHexTail (s.drop 2)) ∧
      (∀ items ws, items ≠ [] → (∀ p ∈ items, isHexDig p.2 = true) →
        (∀ c ∈ ws, pyIsSpace c = true) → s.drop 2 = encItems items ++ ws →
        intoIntFromHex (.str s) = .ok (((itemsDigits items).foldl hexStep 0 : Nat) : Int)) ∧
      (¬IntHexTail (s.drop 2) →
        intoIntFromHex (.str s) =
          .error (.valueError (ofString "invalid literal for int() with base 0")))) ∧
    (∀ s : Str, (∀ c ∈ s, c < 128) → s.take 2 = ofString "0x" →
      ((∃ b, intoBytesFromHex (.str s) = .ok b) ↔ BytesHexTail (s.drop 2)) ∧
      (∀ ps ws, PairsWF ps → (∀ c ∈ ws, asciiWS c = true) →
        s.drop 2 = encPairs ps ++ ws →
        intoBytesFromHex (.str s) = .ok (pairsBytes ps)) ∧
      (¬BytesHexTail (s.drop 2) →
        intoBytesFromHex (.str s) =
          .error (.structuring (ofString "non-hexadecimal number found in fromhex() arg")))) := by
  refine ⟨?_, ?_, ?_, ?_⟩
  · intro j hj
    cases j
    case str s => exact absurd rfl (hj s)
    all_goals exact ⟨rfl, rfl⟩
  · intro s h
    rw [intoIntFromHex_str, intoBytesFromHex_str, if_neg h, if_neg h]
    exact ⟨rfl, rfl⟩
  · intro s _ h
    refine ⟨?_, ?_, ?_⟩
    · constructor
      · rintro ⟨n, hn⟩
        rw [intoIntFromHex_str, if_pos h] at hn
        cases hstart : hexStart (s.drop 2) with
        | none => rw [hstart] at hn; simp at hn
        | some m =>
          obtain ⟨items, ws, hp, hw, hceq, _, _, hne⟩ :=
            hexRun_inv (s.drop 2) 2 0 m hstart
          exact ⟨items, ws, hne (by omega), hp, hw, hceq⟩
      · rintro ⟨items, ws, hne, hp, hw, hceq⟩
        refine ⟨(((itemsDigits items).foldl hexStep 0 : Nat) : Int), ?_⟩
        rw [intoIntFromHex_str, if_pos h, hceq, hexStart_enc items ws hne hp hw]
    · intro items ws hne hp hw hceq
      rw [intoIntFromHex_str, if_pos h, hceq, hexStart_enc items ws hne hp hw]
    · intro hns
      rw [intoIntFromHex_str, if_pos h]
      cases hstart : hexStart (s.drop 2) with
      | none => rfl
      | some m =>
        exfalso
        apply hns
        obtain ⟨items, ws, hp, hw, hceq, _, _, hne⟩ :=
          hexRun_inv (s.drop 2) 2 0 m hstart
        exact ⟨items, ws, hne (by omega), hp, hw, hceq⟩
  · intro s _ h
    refine ⟨?_, ?_, ?_⟩
    · constructor
      · rintro ⟨b, hb⟩
        rw [intoBytesFromHex_str, if_pos h] at hb
        cases hloop : fromhexLoop (s.drop 2) [] with
        | none => rw [hloop] at hb; simp at hb
        | some bs =>
          obtain ⟨hnone, _⟩ := fromhexRun_inv (s.drop 2) none [] bs hloop
          obtain ⟨ps, ws, hps, hws, hceq, _⟩ := hnone rfl
          exact ⟨ps, ws, hps, hws, hceq⟩
      · rintro ⟨ps, ws, hps, hws, hceq⟩
        refine ⟨pairsBytes ps, ?_⟩
        rw [intoBytesFromHex_str, if_pos h, hceq,
          show fromhexLoop (encPairs ps ++ ws) [] = some ([].reverse ++ pairsBytes ps) from
            fromhexRun_enc ps ws [] hps hws]
        simp
    · intro ps ws hps hws hceq
      rw [intoBytesFromHex_str, if_pos h, hceq,
        show fromhexLoop (encPairs ps ++ ws) [] = some ([].reverse ++ pairsBytes ps) from
          fromhexRun_enc ps ws [] hps hws]
      simp
    · intro hns
      rw [intoBytesFromHex_str, if_pos h]
      cases hloop : fromhexLoop (s.drop 2) [] with
      | none => rfl
      | some bs =>
        exfalso
        apply hns
        obtain ⟨hnone, _⟩ := fromhexRun_inv (s.drop 2) none [] bs hloop
        obtain ⟨ps, ws, hps, hws, hceq, _⟩ := hnone rfl
        exact ⟨ps, ws, hps, hws, hceq⟩

/-- Witness for C2's amended characterisation on concrete inputs: a
non-string, a non-`0x` string, a leading-underscore hex string and a
whitespace-separated bytes string. -/
theorem claim_C2_amended_witness :
    intoIntFromHex (.int 5) =
      .error (.structuring (ofString "The value must be a 0x-prefixed hex-encoded integer")) ∧
    intoIntFromHex (.str (ofString "12")) =
      .error (.structuring (ofString "The value must be a 0x-prefixed hex-encoded integer")) ∧
    intoIntFromHex (.str (ofString "0x_a")) = .ok 10 ∧
    intoBytesFromHex (.str (ofString "0x 0aff ")) = .ok [10, 255] :=
  ⟨(claim_C2_amended.1 (.int 5) (fun s => by simp)).1,
   (claim_C2_amended.2.1 (ofString "12") (by decide)).1,
   (claim_C2_amended.2.2.1 (ofString "0x_a") (by decide) (by decide)).2.1
     [(true, 97)] [] (by simp) (by decide) (by simp) (by decide),
   (claim_C2_amended.2.2.2 (ofString "0x 0aff ") (by decide) (by decide)).2.1
     [([32], 48, 97), ([], 102, 102)] [32] (by decide) (by decide) (by decide)⟩

end EthereumRpc
